import Mathlib

/-!
Verification of the `act` task runner (github.com/nosebit/act) against its
natural-language specification.

The development shallowly embeds the Go sources of the `run` package
(`cmd/act/run/act.go`, `cmd/act/run/cmd.go`, `cmd/act/run/info.go`,
`cmd/act/run/run.go`) together with the data model of the `actfile` package.
External collaborators of that code (the OS environment, `godotenv`,
`regexp`, the YAML loader `actfile.ReadActFile`, `text/template`, the Go
`flag` package, child processes and the filesystem) are modelled as explicit
parameters collected in the `Ext` structure, so every embedded function is a
pure, executable Lean function of the program state and of that environment.

Modelling conventions, stated once here and referenced below:
* Go `map[string]string` becomes `StrMap := String → Option String`; merging
  a list of maps (later maps overriding earlier ones) becomes the
  right-biased union `StrMap.over`.
* Goroutines launched for a parallel stage are executed in declaration
  order (the interleaving is abstracted away); this is faithful for the
  error-propagation and completion properties proved here, which do not
  depend on the interleaving of independent shell children.
* `utils.exitGracefully` is documented as sending SIGQUIT to the current
  process (so that the handler installed in `main.go`, `scheduleStopOnKill`,
  reacts by calling `run.Stop`), but the code sends the signal to
  `pid := os.Getegid()` — the effective GROUP id, not the process id
  (`utils/log.go` lines 42-45).  Whether that signal reaches the runner
  therefore depends on the OS state: in an ordinary non-root run it does
  not (no such pid is the runner), while under egid 0 `kill(0, SIGQUIT)`
  signals the caller's whole process group and does reach it.  The
  embedding makes this explicit through `Ext.sigquitReachesSelf`
  (default `false`, the ordinary case): `exitGracefully` applies the
  handler's `stop` only when that flag is set, and delivery, when it
  happens, is synchronous.
* A `sync.WaitGroup` is modelled by counting, per stage, how many commands
  signalled `Done`; if the count does not reach the number of commands the
  stage's `wg.Wait()` blocks forever, which the embedding records by setting
  the run status to `hung`.
* Go runtime faults (nil dereference, slice bounds) are recorded by the
  status `crashed`.
* Unbounded recursion (acts calling acts, manifests including manifests) is
  embedded with an explicit fuel parameter; exhausting the fuel yields the
  dedicated status `fuelOut`, which no theorem below treats as evidence.
-/

namespace ActRunner

/-! ## Variable maps -/

/-- A Go `map[string]string`, read through total lookup. -/
def StrMap := String → Option String

/-- The empty map (`make(map[string]string)`). -/
def StrMap.empty : StrMap := fun _ => none

/-- `vars[k] = v` on a Go map. -/
def StrMap.insert (m : StrMap) (k v : String) : StrMap :=
  fun k' => if k' = k then some v else m k'

/-- Right-biased union: the result of writing every entry of `hi` into a
copy of `lo` (`for key, val := range hi { vars[key] = val }` executed after
`lo` was written).  Entries of `hi` override entries of `lo`. -/
def StrMap.over (lo hi : StrMap) : StrMap :=
  fun k => (hi k).orElse (fun _ => lo k)

/-! ## Data model (`actfile` package)

The current `actfile` package sources are not part of the snapshot under
`src/` (only an earlier revision of them is); the structures below follow
the fields that `cmd/act/run` reads, with `ActFile.beforeAll` an exec stage
as required by `ExecBeforeAll` (`Act{Start: beforeAll}`). -/

/-- `actfile.CmdLoop`. -/
structure CmdLoop where
  items : List String := []
  glob : String := ""
deriving DecidableEq

/-- `actfile.Cmd`.  The Go field `From` is `fromPath` here and the YAML
field `act` keeps its decoded meaning (a dotted act call id). -/
structure Cmd where
  cmd : String := ""
  script : String := ""
  shell : String := ""
  act : String := ""
  fromPath : String := ""
  detach : Bool := false
  loop : Option CmdLoop := none
  mismatch : String := ""
  args : List String := []
  quiet : Bool := false
  log : Bool := false
deriving DecidableEq

/-- `actfile.ActExecStage`. -/
structure ActExecStage where
  name : String := ""
  parallel : Bool := false
  cmds : List Cmd := []
  script : String := ""
  shell : String := ""
  quiet : Bool := false
deriving DecidableEq

/-- The scalar fields of `actfile.Act`; the Go field `Include` is
`includePath` here. -/
structure ActData where
  name : String := ""
  flags : List String := []
  envFilePath : String := ""
  start : Option ActExecStage := none
  before : Option ActExecStage := none
  teardown : Option ActExecStage := none
  final : Option ActExecStage := none
  redirect : String := ""
  includePath : String := ""
  quiet : Bool := false
  log : String := ""
  shell : String := ""
deriving DecidableEq

/-- `actfile.Act`: its scalar data plus the ordered child acts
(`Acts []*Act`). -/
inductive Act where
  | mk (data : ActData) (acts : List Act)

/-- Scalar fields of an act. -/
def Act.data : Act → ActData
  | .mk d _ => d

/-- Ordered child acts (`Act.Acts`). -/
def Act.acts : Act → List Act
  | .mk _ l => l

/-- `actfile.ActFile` as read by the `run` package.  The before-all marker
`InitWg` lives in the engine state (`EngState.marked`), keyed by
`locationPath`. -/
structure ActFile where
  locationPath : String := ""
  envFilePath : String := ""
  shell : String := ""
  log : String := ""
  beforeAll : Option ActExecStage := none
  acts : List Act := []

/-! ## Run contexts (`run` package) -/

/-- `run.ActRunCtx`: the per-invocation context.  `prev` is the Go
`PrevCtx` back-link. -/
inductive RCtx where
  | mk (actFile : ActFile) (act : Act) (prev : Option RCtx) (callId : String)
      (flagVals : StrMap) (vars : StrMap) (actVars : StrMap)
      (parentVars : StrMap) (args : List String)
      (currentStage : Option ActExecStage)

/-- `ActRunCtx.ActFile`. -/
def RCtx.actFile : RCtx → ActFile
  | .mk af _ _ _ _ _ _ _ _ _ => af

/-- `ActRunCtx.Act`. -/
def RCtx.act : RCtx → Act
  | .mk _ a _ _ _ _ _ _ _ _ => a

/-- `ActRunCtx.PrevCtx`. -/
def RCtx.prev : RCtx → Option RCtx
  | .mk _ _ p _ _ _ _ _ _ _ => p

/-- `ActRunCtx.CallId`. -/
def RCtx.callId : RCtx → String
  | .mk _ _ _ c _ _ _ _ _ _ => c

/-- `ActRunCtx.FlagVals`. -/
def RCtx.flagVals : RCtx → StrMap
  | .mk _ _ _ _ f _ _ _ _ _ => f

/-- `ActRunCtx.Vars`. -/
def RCtx.vars : RCtx → StrMap
  | .mk _ _ _ _ _ v _ _ _ _ => v

/-- `ActRunCtx.ActVars`. -/
def RCtx.actVars : RCtx → StrMap
  | .mk _ _ _ _ _ _ av _ _ _ => av

/-- `ActRunCtx.ParentVars`. -/
def RCtx.parentVars : RCtx → StrMap
  | .mk _ _ _ _ _ _ _ pv _ _ => pv

/-- `ActRunCtx.Args`. -/
def RCtx.args : RCtx → List String
  | .mk _ _ _ _ _ _ _ _ ar _ => ar

/-- `ActRunCtx.CurrentStage`. -/
def RCtx.currentStage : RCtx → Option ActExecStage
  | .mk _ _ _ _ _ _ _ _ _ cs => cs

/-- Write `ActRunCtx.CallId`. -/
def RCtx.withCallId : RCtx → String → RCtx
  | .mk af a p _ f v av pv ar cs, c => .mk af a p c f v av pv ar cs

/-- Write `ActRunCtx.Args`. -/
def RCtx.withArgs : RCtx → List String → RCtx
  | .mk af a p c f v av pv _ cs, ar => .mk af a p c f v av pv ar cs

/-- Write `ActRunCtx.FlagVals`. -/
def RCtx.withFlagVals : RCtx → StrMap → RCtx
  | .mk af a p c _ v av pv ar cs, f => .mk af a p c f v av pv ar cs

/-- Write `ActRunCtx.CurrentStage`. -/
def RCtx.withCurrentStage : RCtx → Option ActExecStage → RCtx
  | .mk af a p c f v av pv ar _, cs => .mk af a p c f v av pv ar cs

/-- The run-wide fields of `run.RunCtx` read by the variable resolver: the
run-wide vars, the run-level act-runtime vars (holding `ActEnv`), and the
path of the run's shared runtime dotenv
(`Info.GetEnvVarsFilePath()`). -/
structure RunConf where
  vars : StrMap := StrMap.empty
  actVars : StrMap := StrMap.empty
  envVarsFilePath : String := ""

/-- The external collaborators of the `run` package, each one a parameter
of the embedding:
* `environ` — the `os.Environ()` snapshot, raw `"k=v"` strings;
* `workDir` — `utils.GetWd()`;
* `readDotenv p` — the map produced by `godotenv.Read(p)` with the error
  discarded (the Go call sites ignore it): empty on a missing file;
* `matchString pat s` — `regexp.MatchString(pat, s)`: `.error ()` models a
  pattern compilation failure (in which case Go also returns `false`);
* `readActFile p` — `actfile.ReadActFile(p)`;
* `resolvePath d p` — `utils.ResolvePath(d, p)`;
* `dirOf p` — `path.Dir(p)`;
* `compileTemplate s vars` — `utils.CompileTemplate(s, vars)`;
* `parseFlags decls args` — the Go `flag` package parse performed by
  `ActRunCtx.Exec`: `some (flagVals, restArgs)` on success, `none` on a
  parse error;
* `shellExit line` — the exit status of the shell child spawned for the
  compiled command line (`0` success, positive = failed, negative models a
  signal-killed child as reported by `WaitStatus.ExitStatus`);
* `globList pat` — `filepath.Glob(pat)`;
* `sigquitReachesSelf` — whether the SIGQUIT that `utils.exitGracefully`
  sends to `pid := os.Getegid()` (`utils/log.go` lines 42-45) is delivered
  to this runner process.  `false` (the default) is the ordinary non-root
  run, where the effective group id is not the runner's pid; `true` is the
  egid-0 case, where `kill(0, SIGQUIT)` signals the caller's process group
  and the `scheduleStopOnKill` handler fires. -/
structure Ext where
  environ : List String := []
  workDir : String := ""
  readDotenv : String → StrMap := fun _ => StrMap.empty
  matchString : String → String → Except Unit Bool := fun _ _ => .ok false
  readActFile : String → ActFile := fun _ => {}
  resolvePath : String → String → String := fun d p => d ++ "/" ++ p
  dirOf : String → String := fun _ => ""
  compileTemplate : String → StrMap → String := fun s _ => s
  parseFlags : List String → List String → Option (StrMap × List String) :=
    fun _ a => some (StrMap.empty, a)
  shellExit : String → Int := fun _ => 0
  globList : String → List String := fun _ => []
  sigquitReachesSelf : Bool := false

/-! ## Variable resolver (`act.go`: `GetLocalVars`, `MergeVars`) -/

/-- `"."`, the constant `run.ActCallIdSeparator`. -/
def ActCallIdSeparator : String := "."

/-- Helper for `goSplitDot`: split a character list at every `.`. -/
def goSplitDotAux : List Char → List Char → List String
  | [], acc => [String.mk acc.reverse]
  | c :: rest, acc =>
    if c = '.' then String.mk acc.reverse :: goSplitDotAux rest []
    else goSplitDotAux rest (c :: acc)

/-- `strings.Split(s, ActCallIdSeparator)`: the separator constant is the
single character `.`, so the split is implemented characterwise (an
executable reimplementation; `String.splitOn` itself does not reduce in
the kernel). -/
def goSplitDot (s : String) : List String := goSplitDotAux s.data []

/-- `strings.Join(elems, ActCallIdSeparator)`. -/
def goJoinDot : List String → String
  | [] => ""
  | [x] => x
  | x :: rest => x ++ "." ++ goJoinDot rest

/-- The map built from `os.Environ()` in `MergeVars`: each `"k=v"` entry is
split on `"="` and kept only when the split has exactly two parts. -/
def environToMap (environ : List String) : StrMap :=
  environ.foldl
    (fun m kv =>
      match kv.splitOn "=" with
      | [k, v] => m.insert k v
      | _ => m)
    StrMap.empty

/-- The manifest-level env-file map read by `GetLocalVars`: empty when the
actfile declares no env file. -/
def manifestEnvFileVars (ext : Ext) (ctx : RCtx) : StrMap :=
  if ctx.actFile.envFilePath ≠ "" then
    ext.readDotenv
      (ext.resolvePath (ext.dirOf ctx.actFile.locationPath) ctx.actFile.envFilePath)
  else StrMap.empty

/-- The act-level env-file map read by `GetLocalVars`: empty when the act
declares no env file. -/
def actEnvFileVars (ext : Ext) (ctx : RCtx) : StrMap :=
  if ctx.act.data.envFilePath ≠ "" then
    ext.readDotenv
      (ext.resolvePath (ext.dirOf ctx.actFile.locationPath) ctx.act.data.envFilePath)
  else StrMap.empty

/-- `ActRunCtx.GetLocalVars`: parent vars, then the manifest env file, then
the act env file, then the invocation's own vars, later entries
overriding earlier ones. -/
def getLocalVars (ext : Ext) (ctx : RCtx) : StrMap :=
  ((ctx.parentVars.over (manifestEnvFileVars ext ctx)).over
      (actEnvFileVars ext ctx)).over
    ctx.vars

/-- `ActRunCtx.MergeVars`: merges, in order (later overriding earlier), the
OS environment, the run-wide vars, the runtime dotenv, the local vars of
`GetLocalVars`, the run-level act-runtime vars, the invocation act-runtime
vars and the flag values; finally writes `CliArgs`. -/
def mergeVars (ext : Ext) (rc : RunConf) (ctx : RCtx) : StrMap :=
  let runtimeVars := ext.readDotenv rc.envVarsFilePath
  let localVars := getLocalVars ext ctx
  let environVars := environToMap ext.environ
  let merged :=
    (((((environVars.over rc.vars).over runtimeVars).over localVars).over
          rc.actVars).over
        ctx.actVars).over
      ctx.flagVals
  merged.insert "CliArgs" (String.intercalate " " ctx.args)

/-! ## Name resolver (`act.go`: `FindActCtx`) -/

/-- Result of `FindActCtx`: a resolved context, the Go `error` return with
its message, a Go runtime fault, or fuel exhaustion of the embedding. -/
inductive FindRes where
  | ok (ctx : RCtx)
  | err (msg : String)
  | crashed (msg : String)
  | fuelOut
deriving Nonempty

/-- The act of a successful resolution, if any. -/
def FindRes.ctxAct : FindRes → Option Act
  | .ok c => some c.act
  | _ => none

/-- The call id of a successful resolution, if any. -/
def FindRes.ctxCallId : FindRes → Option String
  | .ok c => some c.callId
  | _ => none

/-- `match, _ := regexp.MatchString(pattern, target)`: the compilation
error is discarded, and Go returns `false` alongside an error, so an
erroring pattern behaves as a non-match. -/
def goMatch (ext : Ext) (pattern target : String) : Bool :=
  match ext.matchString pattern target with
  | .ok b => b
  | .error _ => false

/-- The candidate iteration of `FindActCtx` (its `for _, act := range acts`
loop).  `next` is the recursive `FindActCtx` call at one fuel level lower.
Per the source: the first act whose anchored regex `^name$` matches the
target wins; on a match a fresh context is built (act-runtime vars
`ActName`, `ActFilePath`, `ActFileDir`; call id appended to the parent's
with separator `.`); then `redirect` recurses with the unchanged segment
list, `include` recurses with `actNames[1:]` (which faults when the list is
empty), an act with children and remaining segments recurses with the tail,
and otherwise the context is returned; if no candidate matches, the
`"act <target> not found in <path>"` error is returned. -/
def findStep (next : List String → ActFile → Option RCtx → FindRes)
    (ext : Ext) (rc : RunConf) (actNames : List String) (actFile : ActFile)
    (prevCtx : Option RCtx) (target wd : String) (parentVars : StrMap)
    (path : String) : List Act → FindRes
  | [] => .err ("act " ++ target ++ " not found in " ++ path)
  | a :: rest =>
    if goMatch ext ("^" ++ a.data.name ++ "$") target then
      let actVars :=
        ((StrMap.empty.insert "ActName" target).insert "ActFilePath"
              actFile.locationPath).insert
          "ActFileDir" (ext.dirOf actFile.locationPath)
      let ctx0 : RCtx :=
        .mk actFile a prevCtx "" StrMap.empty StrMap.empty actVars parentVars
          [] none
      let vars := mergeVars ext rc ctx0
      let callId :=
        match prevCtx with
        | some p => goJoinDot (goSplitDot p.callId ++ [target])
        | none => target
      let ctx := ctx0.withCallId callId
      if a.data.redirect ≠ "" then
        next actNames
          (ext.readActFile
            (ext.resolvePath wd (ext.compileTemplate a.data.redirect vars)))
          (some ctx)
      else if a.data.includePath ≠ "" then
        match actNames with
        | [] => .crashed "slice bounds out of range"
        | _ :: tl =>
          next tl
            (ext.readActFile
              (ext.resolvePath wd
                (ext.compileTemplate a.data.includePath vars)))
            (some ctx)
      else if 0 < a.acts.length ∧ 0 < actNames.length then
        next actNames.tail actFile (some ctx)
      else .ok ctx
    else
      findStep next ext rc actNames actFile prevCtx target wd parentVars path
        rest

/-- `run.FindActCtx`, with fuel bounding the recursion through `redirect`,
`include` and nested acts.  The target is the head segment, `"_"` when the
segment list is empty; the candidates are the previous act's children when
that act has any, and the manifest's top-level acts otherwise. -/
def findActCtx (ext : Ext) (rc : RunConf) :
    Nat → List String → ActFile → Option RCtx → FindRes
  | 0, _, _, _ => .fuelOut
  | fuel + 1, actNames, actFile, prevCtx =>
    let target :=
      match actNames with
      | [] => "_"
      | n :: _ => n
    let wd := ext.dirOf actFile.locationPath
    let parentVars :=
      match prevCtx with
      | some p => getLocalVars ext p
      | none => StrMap.empty
    let cands :=
      match prevCtx with
      | some p =>
        if 0 < p.act.acts.length then (p.act.acts, p.actFile.locationPath)
        else (actFile.acts, actFile.locationPath)
      | none => (actFile.acts, actFile.locationPath)
    findStep (findActCtx ext rc fuel) ext rc actNames actFile prevCtx target
      wd parentVars cands.2 cands.1

/-! ## Engine state (`run.RunCtx` mutable fields, `utils` globals, trace) -/

/-- `run.RunCtx.State`: a Go string that is empty before `run.Exec` sets it
to `"running"`. -/
inductive GoExecState where
  | unset
  | running
  | stopped
deriving DecidableEq

/-- Status of the embedded computation: `ok` (still executing normally),
`hung` (a `wg.Wait()` that can never return), `crashed` (a Go runtime
fault), or `fuelOut` (the embedding's fuel ran out — not a program
behaviour). -/
inductive RStatus where
  | ok
  | hung
  | crashed (msg : String)
  | fuelOut
deriving DecidableEq

/-- Observable events of a run, in program order:
* `shell line exit` — a shell child spawned for the compiled command line
  exited with the given status;
* `logError line` — `utils.LogError` reporting a failed parallel command;
* `stageEnter callId name` — `StageCmdsExec` started executing a stage
  (the debug log at the head of that function);
* `killChildren` — `Info.KillChildren` (killing the registered command
  process groups);
* `killChildActs` — `Info.KillChildActs` (killing detached children);
* `rmDataDir` — `Info.RmDataDir`;
* `detachSpawn name` — `actDetachExec` spawned a detached child runner. -/
inductive Event where
  | shell (cmdLine : String) (exit : Int)
  | logError (cmdLine : String)
  | stageEnter (callId stageName : String)
  | killChildren
  | killChildActs
  | rmDataDir
  | detachSpawn (nameId : String)
deriving DecidableEq

/-- The mutable state of one act runner process: the run state and
finishing flag of `RunCtx`, the `utils.ExitCode` and `utils.KillInProgress`
globals, the invocation call stack (`RunCtx.ActCtxCallStack`), the set of
manifests whose before-all marker (`ActFile.InitWg`) is set — keyed by
manifest path — and the event trace. -/
structure EngState where
  status : RStatus := .ok
  state : GoExecState := .running
  isFinishing : Bool := false
  killInProgress : Bool := false
  exitCode : Int := 0
  callStack : List RCtx := []
  marked : List String := []
  trace : List Event := []

/-- Append one event to the trace. -/
def EngState.emit (st : EngState) (e : Event) : EngState :=
  { st with trace := st.trace ++ [e] }

/-- `run.Stop`: only when not finishing and in the running state, kill the
registered command process groups and move to the stopped state. -/
def stop (st : EngState) : EngState :=
  if ¬st.isFinishing ∧ st.state = .running then
    { st.emit .killChildren with state := .stopped }
  else st

/-- `utils.exitGracefully` (`utils/log.go` lines 37-46) together with the
`scheduleStopOnKill` handler of `main.go`: the first call marks
`KillInProgress` and sends SIGQUIT with `syscall.Kill(pid, SIGQUIT)` where
`pid := os.Getegid()` — the effective group id, not the process id.  The
signal therefore reaches this runner (and its handler `run.Stop`) only
when `Ext.sigquitReachesSelf` holds; otherwise only `KillInProgress` is
set and execution continues.  Later calls are no-ops either way.  When the
signal is delivered, the embedding delivers it synchronously. -/
def exitGracefully (ext : Ext) (st : EngState) : EngState :=
  if st.killInProgress then st
  else
    let marked := { st with killInProgress := true }
    if ext.sigquitReachesSelf then stop marked else marked

/-- `utils.FatalError`: set `ExitCode = 1` and exit gracefully. -/
def fatalError (ext : Ext) (st : EngState) : EngState :=
  exitGracefully ext { st with exitCode := 1 }

/-- `utils.FatalErrorWithCode`: set `ExitCode = code` and exit
gracefully. -/
def fatalErrorWithCode (ext : Ext) (code : Int) (st : EngState) : EngState :=
  exitGracefully ext { st with exitCode := code }

/-! ## The execution engine (`act.go` / `cmd.go` / `run.go`)

The mutual recursion `Exec` / `ExecBeforeAll` / `StageCmdsExec` /
`CmdExec` / `FinalStageExec` / `Finish` is embedded as a fuel-indexed
family: `engine ext rc fuel` packages the six functions, and every
cross-function call inside one level uses the family at one fuel level
lower, so the whole family is structurally recursive in the fuel. -/

/-- The six mutually recursive functions of the engine at one fuel
level. -/
structure Engine where
  execAct : RCtx → EngState → EngState
  execBeforeAll : RCtx → EngState → EngState
  stageExec : ActExecStage → RCtx → EngState → EngState
  cmdExec : Cmd → RCtx → EngState → EngState × Bool
  finalStageExec : RCtx → EngState → EngState
  finish : EngState → EngState

/-- Fuel exhaustion: every function marks the state `fuelOut` (leaving an
already non-`ok` status untouched). -/
def Engine.stuck : Engine :=
  let out : EngState → EngState := fun st =>
    if st.status = .ok then { st with status := .fuelOut } else st
  { execAct := fun _ st => out st
    execBeforeAll := fun _ st => out st
    stageExec := fun _ _ st => out st
    cmdExec := fun _ _ st => (out st, false)
    finalStageExec := fun _ st => out st
    finish := fun st => out st }

/-- The transient invocation context `ExecBeforeAll` synthesizes for a
manifest's before-all stage: call id `<callId>::before`, an act whose only
stage is `Start = beforeAll`, and the run-wide vars as its vars. -/
def mkBeforeCtx (rc : RunConf) (c : RCtx) (ba : ActExecStage) : RCtx :=
  .mk c.actFile (.mk { start := some ba } []) none (c.callId ++ "::before")
    StrMap.empty rc.vars StrMap.empty StrMap.empty [] none

/-- The walk loop of `ExecBeforeAll`.  It visits contexts starting from the
current one; a visited context whose manifest is already marked breaks the
loop, otherwise the manifest is marked and, when it has a non-empty
before-all stage, a synthesized context is pushed on the front of the walk
stack.  The loop then continues with `ctx.PrevCtx` — the previous context
of the ORIGINAL context (`currCtx = ctx.PrevCtx` in the source), not of the
one just visited.  Returns the new marker set, the walk stack, and whether
the embedding's fuel ran out. -/
def beforeWalk (rc : RunConf) (orig : RCtx) :
    Nat → Option RCtx → List String → List RCtx →
      List String × List RCtx × Bool
  | _, none, marked, acc => (marked, acc, false)
  | 0, some _, marked, acc => (marked, acc, true)
  | fuel + 1, some c, marked, acc =>
    if c.actFile.locationPath ∈ marked then (marked, acc, false)
    else
      let marked' := c.actFile.locationPath :: marked
      let acc' :=
        match c.actFile.beforeAll with
        | some ba => if ba.cmds ≠ [] then mkBeforeCtx rc c ba :: acc else acc
        | none => acc
      beforeWalk rc orig fuel orig.prev marked' acc'

/-- `CmdExec` (cmd.go): dispatch one command — loop expansion, act call
(detached or in-process), or shell execution.  `prev` is the engine at one
fuel level lower (used for the recursive `StageCmdsExec` and `Exec` calls)
and `fuel` bounds the `FindActCtx` recursion.  The returned flag records
whether the command signalled its wait group (`wg.Done()`). -/
def cmdExecF (ext : Ext) (rc : RunConf) (fuel : Nat) (prev : Engine)
    (c : Cmd) (ctx : RCtx) (st : EngState) : EngState × Bool :=
  if st.status ≠ .ok then (st, false)
  else if st.state ≠ .running then (st, false)
  else
    let vars := mergeVars ext rc ctx
    match c.loop with
    | some lp =>
      -- Loop expansion: glob or explicit items; for each item the
      -- command's templated fields are recompiled with `LoopItem` set,
      -- and the generated commands run as a synthetic stage under the
      -- current stage's parallel flag; then the wait group is signalled.
      let items :=
        if lp.glob ≠ "" then
          ext.globList
            (ext.resolvePath (ext.dirOf ctx.actFile.locationPath)
              (ext.compileTemplate lp.glob vars))
        else lp.items
      if items.isEmpty then (st, true)
      else
        match ctx.currentStage with
        | none => ({ st with status := .crashed "nil CurrentStage" }, false)
        | some cs =>
          let genCmds : List Cmd := items.map fun it =>
            let vars' := vars.insert "LoopItem" it
            { cmd := ext.compileTemplate c.cmd vars'
              act := ext.compileTemplate c.act vars'
              fromPath := ext.compileTemplate c.fromPath vars'
              args := c.args
              script := c.script
              detach := c.detach
              mismatch := c.mismatch
              quiet := c.quiet }
          let genStage : ActExecStage :=
            { name := "", parallel := cs.parallel, cmds := genCmds }
          (prev.stageExec genStage ctx st, true)
    | none =>
      if c.act ≠ "" then
        if c.detach then
          -- `actDetachExec`: spawn a detached child runner and signal
          -- the wait group.
          (st.emit (.detachSpawn (ext.compileTemplate c.act vars)), true)
        else
          let actField := ext.compileTemplate c.act vars
          let actNames := goSplitDot actField
          let af :=
            if c.fromPath ≠ "" then
              let fp :=
                ext.resolvePath ext.workDir
                  (ext.compileTemplate c.fromPath vars)
              if ctx.actFile.locationPath ≠ fp then ext.readActFile fp
              else ctx.actFile
            else ctx.actFile
          let cmdArgs := c.args.map fun a => ext.compileTemplate a vars
          match findActCtx ext rc fuel actNames af (some ctx) with
          | .fuelOut => ({ st with status := .fuelOut }, false)
          | .crashed m => ({ st with status := .crashed m }, false)
          | .err _ =>
            if c.mismatch = "allow" then
              -- The source returns here WITHOUT calling `wg.Done()`.
              (st, false)
            else
              -- `utils.FatalError(err)` returns, and the following
              -- `nextCtx.Args = cmdArgs` dereferences the nil context.
              ({ fatalError ext st with
                  status := .crashed "nil pointer dereference" }, false)
          | .ok nctx => (prev.execAct (nctx.withArgs cmdArgs) st, true)
      else
        -- Shell line / script execution.
        match ctx.currentStage with
        | none => ({ st with status := .crashed "nil CurrentStage" }, false)
        | some cs =>
          let cmdLine :=
            if c.script ≠ "" then ext.compileTemplate c.script vars
            else ext.compileTemplate c.cmd vars
          let exit := ext.shellExit cmdLine
          let st1 := st.emit (.shell cmdLine exit)
          let st2 :=
            if exit ≠ 0 ∧ ¬st1.isFinishing then
              if 0 < exit then
                if cs.parallel then st1.emit (.logError cmdLine)
                else fatalErrorWithCode ext exit st1
              else st1
            else st1
          (st2, true)

/-- The command loop of `StageCmdsExec`, abstracted over the `CmdExec`
function `ce`.  Commands reached while the run is no longer running are
skipped with their wait group slot signalled (`wg.Done(); continue`);
otherwise the command executes and reports whether it signalled.  Returns
the final state and the number of signalled slots. -/
def stageLoop (ce : Cmd → RCtx → EngState → EngState × Bool) (ctx : RCtx) :
    List Cmd → EngState → EngState × Nat
  | [], st => (st, 0)
  | c :: rest, st =>
    if st.status ≠ .ok then (st, 0)
    else if st.state ≠ .running then
      let r := stageLoop ce ctx rest st
      (r.1, r.2 + 1)
    else
      let r1 := ce c ctx st
      let r := stageLoop ce ctx rest r1.1
      (r.1, r.2 + if r1.2 then 1 else 0)

/-- `StageCmdsExec` (cmd.go), abstracted over the `CmdExec` function `ce`:
skip unless the run state is running; set `CurrentStage`; run the commands;
the final `wg.Wait()` hangs forever when some command never signalled its
wait group slot. -/
def stageExecF (ce : Cmd → RCtx → EngState → EngState × Bool)
    (stage : ActExecStage) (ctx : RCtx) (st : EngState) : EngState :=
  if st.status ≠ .ok then st
  else if st.state ≠ .running then st
  else
    let ctx' := ctx.withCurrentStage (some stage)
    let st1 := st.emit (.stageEnter ctx.callId stage.name)
    let r := stageLoop ce ctx' stage.cmds st1
    if r.1.status = .ok ∧ r.2 ≠ stage.cmds.length then
      { r.1 with status := .hung }
    else r.1

/-- `FinalStageExec` (act.go), abstracted over the stage executor `se`:
run the `Final` stage, or the deprecated `Teardown` stage when no `Final`
is declared. -/
def finalStageExecF (se : ActExecStage → RCtx → EngState → EngState)
    (ctx : RCtx) (st : EngState) : EngState :=
  match ctx.act.data.final with
  | some f => se f ctx st
  | none =>
    match ctx.act.data.teardown with
    | some t => se t ctx st
    | none => st

/-- `Finish` (run.go), abstracted over `FinalStageExec`: idempotent via
`IsFinishing`; a still-running state means the engine terminated naturally
(kill dangling detached children, remove the data dir); otherwise resume
the running state, set the finishing flag, run the final stages of every
invocation on the call stack innermost-first (`cleanup`), and remove the
data dir. -/
def finishF (fse : RCtx → EngState → EngState) (st : EngState) : EngState :=
  if st.status ≠ .ok then st
  else if st.isFinishing then st
  else if st.state = .running then (st.emit .killChildren).emit .rmDataDir
  else
    let st1 := { st with state := .running, isFinishing := true }
    let st2 := st1.callStack.reverse.foldl (fun s c => fse c s) st1
    st2.emit .rmDataDir

/-- `ExecBeforeAll` (act.go), abstracted over the recursive `Exec` call:
walk the context chain collecting and marking pending before-all stages,
then execute the collected walk stack in order. -/
def execBeforeAllF (rc : RunConf) (fuel : Nat)
    (ea : RCtx → EngState → EngState) (ctx : RCtx) (st : EngState) :
    EngState :=
  if st.status ≠ .ok then st
  else
    let w := beforeWalk rc ctx (fuel + 1) (some ctx) st.marked []
    if w.2.2 then { st with status := .fuelOut }
    else w.2.1.foldl (fun s b => ea b s) { st with marked := w.1 }

/-- `Exec` (act.go), abstracted over the other engine functions: push the
context on the call stack, run the pending before-all stages, parse the
act's flags, return immediately when there is no `start` stage, run the
`before` stage then the `start` stage, and — unless the run reached the
stopped state — kill detached children when this is the outermost live
invocation, run the final stage and pop the call stack. -/
def execActF (ext : Ext)
    (eba : RCtx → EngState → EngState)
    (se : ActExecStage → RCtx → EngState → EngState)
    (fse : RCtx → EngState → EngState) (fin : EngState → EngState)
    (ctx : RCtx) (st : EngState) : EngState :=
  if st.status ≠ .ok then st
  else
    let st1 := { st with callStack := st.callStack ++ [ctx] }
    let st2 := eba ctx st1
    if st2.status ≠ .ok then st2
    else
      let parsed :=
        if ctx.act.data.flags ≠ [] then
          ext.parseFlags ctx.act.data.flags ctx.args
        else some (ctx.flagVals, ctx.args)
      match parsed with
      | none =>
        -- Flag parse error: `Stop(); Finish(); FatalError(); return`.
        fatalError ext (fin (stop st2))
      | some (fv, rest) =>
        let ctx' :=
          if ctx.act.data.flags ≠ [] then (ctx.withFlagVals fv).withArgs rest
          else ctx
        -- The pushed stack entry is the same Go pointer as `ctx`, so it
        -- carries the parsed flags from here on.
        let st3 := { st2 with callStack := st2.callStack.dropLast ++ [ctx'] }
        match ctx'.act.data.start with
        | none => st3
        | some startStage =>
          let st4 :=
            match ctx'.act.data.before with
            | some b => se b ctx' st3
            | none => st3
          let st5 := se startStage ctx' st4
          if st5.status ≠ .ok then st5
          else if st5.state ≠ .stopped then
            let st6 :=
              if st5.callStack.length = 1 then st5.emit .killChildActs
              else st5
            let st7 := fse ctx' st6
            if st7.status ≠ .ok then st7
            else { st7 with callStack := st7.callStack.dropLast }
          else st5

/-- One engine level built from the previous one (`prev` is the engine at
one fuel level lower; `fuel` is that lower level, also the fuel given to
`FindActCtx`). -/
def Engine.step (ext : Ext) (rc : RunConf) (fuel : Nat) (prev : Engine) :
    Engine :=
  let ce := cmdExecF ext rc fuel prev
  let se := stageExecF ce
  let fse := finalStageExecF se
  let fin := finishF fse
  let eba := execBeforeAllF rc fuel prev.execAct
  { execAct := execActF ext eba se fse fin
    execBeforeAll := eba
    stageExec := se
    cmdExec := ce
    finalStageExec := fse
    finish := fin }

/-- The fuel-indexed engine. -/
def engine (ext : Ext) (rc : RunConf) : Nat → Engine
  | 0 => Engine.stuck
  | fuel + 1 => Engine.step ext rc fuel (engine ext rc fuel)

/-- The non-daemon `run` pipeline of `main.go` (part of `run.Exec` plus the
trailing `cmd.Finish()`): execute the resolved invocation, then finish. -/
def runPipeline (ext : Ext) (rc : RunConf) (fuel : Nat) (ctx : RCtx)
    (st : EngState) : EngState :=
  (engine ext rc fuel).finish ((engine ext rc fuel).execAct ctx st)

/-! ## Claim C1 — variable precedence

Concrete scenario: the manifest env file defines `X=m`, the act env file
defines `X=a`, the run-wide vars define `X=r`; no local var and no flag
for `X`. -/

/-- Environment for the C1 scenario: `path.Dir` of the manifest is `/p`,
the manifest env file `/p/mf` holds `X=m`, the act env file `/p/af` holds
`X=a`, any other dotenv read is empty. -/
def c1Ext : Ext :=
  { dirOf := fun _ => "/p"
    readDotenv := fun p =>
      if p = "/p/mf" then StrMap.empty.insert "X" "m"
      else if p = "/p/af" then StrMap.empty.insert "X" "a"
      else StrMap.empty }

/-- Run-wide configuration for the C1 scenario: run-wide var `X=r`. -/
def c1Rc : RunConf :=
  { vars := StrMap.empty.insert "X" "r", envVarsFilePath := "/rt/env" }

/-- The manifest of the C1 scenario, declaring env file `mf`. -/
def c1ActFile : ActFile :=
  { locationPath := "/p/actfile.yml", envFilePath := "mf" }

/-- The act of the C1 scenario, declaring env file `af`. -/
def c1Act : Act := .mk { envFilePath := "af" } []

/-- The invocation context of the C1 scenario: no local vars, no act vars,
no flags. -/
def c1Ctx : RCtx :=
  .mk c1ActFile c1Act none "foo" StrMap.empty StrMap.empty StrMap.empty
    StrMap.empty [] none

/-! ## Claims C2, C3, C8 — name resolution -/

/-- The target segment of a resolution step: the head segment, or `"_"`
for an empty segment list. -/
def targetOf (actNames : List String) : String := actNames.headD "_"

/-- The act-runtime vars a resolution step installs on a match:
`ActName`, `ActFilePath`, `ActFileDir`. -/
def matchActVars (ext : Ext) (af : ActFile) (target : String) : StrMap :=
  ((StrMap.empty.insert "ActName" target).insert "ActFilePath"
        af.locationPath).insert
    "ActFileDir" (ext.dirOf af.locationPath)

/-- The context a resolution step builds for a matched act, before its
call id is assigned. -/
def matchCtx0 (ext : Ext) (af : ActFile) (prevCtx : Option RCtx)
    (target : String) (pv : StrMap) (a : Act) : RCtx :=
  .mk af a prevCtx "" StrMap.empty StrMap.empty (matchActVars ext af target)
    pv [] none

/-- The call id a resolution step assigns: the target appended to the
parent's call id with separator `.`. -/
def matchCallId (prevCtx : Option RCtx) (target : String) : String :=
  match prevCtx with
  | some p => goJoinDot (goSplitDot p.callId ++ [target])
  | none => target

/-- The finished context a resolution step builds for a matched act. -/
def matchCtx (ext : Ext) (af : ActFile) (prevCtx : Option RCtx)
    (target : String) (pv : StrMap) (a : Act) : RCtx :=
  (matchCtx0 ext af prevCtx target pv a).withCallId (matchCallId prevCtx target)

/-- The variable mapping a resolution step computes for templating the
`redirect`/`include` fields of a matched act. -/
def matchVars (ext : Ext) (rc : RunConf) (af : ActFile)
    (prevCtx : Option RCtx) (target : String) (pv : StrMap) (a : Act) :
    StrMap :=
  mergeVars ext rc (matchCtx0 ext af prevCtx target pv a)

/-- The single act of the C3 counterexample: an index act `_` carrying an
`include`. -/
def c3Act : Act := .mk { name := "_", includePath := "x.yml" } []

/-- The manifest of the C3 counterexample. -/
def c3ActFile : ActFile :=
  { locationPath := "/m/actfile.yml", acts := [c3Act] }

/-- Environment for the C3 counterexample: the regex `^_$` matches exactly
the target `_`. -/
def c3Ext : Ext :=
  { matchString := fun pat s => .ok (pat == "^_$" && s == "_") }

/-- The candidate acts of the C2 witness scenario, in declaration order:
`zoo`, then the pattern `foo-.+`, then the literal `foo-bar`. -/
def c2Zoo : Act := .mk { name := "zoo" } []

/-- See `c2Zoo`. -/
def c2Wild : Act := .mk { name := "foo-.+" } []

/-- See `c2Zoo`. -/
def c2Exact : Act := .mk { name := "foo-bar" } []

/-- The manifest of the C2 witness scenario. -/
def c2ActFile : ActFile :=
  { locationPath := "/m/actfile.yml", acts := [c2Zoo, c2Wild, c2Exact] }

/-- Environment for the C2 witness scenario, modelling Go's regexp on the
three anchored patterns against the target `foo-bar`: `^zoo$` does not
match, `^foo-.+$` and `^foo-bar$` both match. -/
def c2Ext : Ext :=
  { matchString := fun pat s =>
      .ok ((pat == "^foo-.+$" || pat == "^foo-bar$") && s == "foo-bar") }

/-- The single act of the C8 scenario: its name `(` is an invalid regular
expression, so `regexp.MatchString("^($", …)` fails to compile. -/
def c8Act : Act := .mk { name := "(" } []

/-- The manifest of the C8 scenario. -/
def c8ActFile : ActFile :=
  { locationPath := "/m/actfile.yml", acts := [c8Act] }

/-- Environment for the C8 scenario: compiling the pattern `^($` fails
(as it does in Go), every other pattern simply does not match. -/
def c8Ext : Ext :=
  { matchString := fun pat _ =>
      if pat == "^($" then .error () else .ok false }

/-! ## Shell-command characterization of the engine

`shellStep` restates the shell branch of `CmdExec` as a standalone
function, and `shellFold` the effect of a stage's command loop on
shell-only commands; the lemmas below prove them equal to the engine. -/

/-- The compiled command line of a shell command: the templated script
path when `script` is set, the templated `cmd` line otherwise. -/
def cmdLineOf (ext : Ext) (rc : RunConf) (ctx : RCtx) (c : Cmd) : String :=
  let vars := mergeVars ext rc ctx
  if c.script ≠ "" then ext.compileTemplate c.script vars
  else ext.compileTemplate c.cmd vars

/-- The shell branch of `CmdExec` (no loop, no act call): spawn the child,
record its exit; on a non-zero exit outside the finishing state, a
positive status is logged for a parallel stage and calls
`FatalErrorWithCode` for a sequential one. -/
def shellStep (ext : Ext) (rc : RunConf) (c : Cmd) (ctx : RCtx)
    (st : EngState) : EngState × Bool :=
  if st.status ≠ .ok then (st, false)
  else if st.state ≠ .running then (st, false)
  else
    match ctx.currentStage with
    | none => ({ st with status := .crashed "nil CurrentStage" }, false)
    | some cs =>
      let cmdLine := cmdLineOf ext rc ctx c
      let exit := ext.shellExit cmdLine
      let st1 := st.emit (.shell cmdLine exit)
      let st2 :=
        if exit ≠ 0 ∧ ¬st1.isFinishing then
          if 0 < exit then
            if cs.parallel then st1.emit (.logError cmdLine)
            else fatalErrorWithCode ext exit st1
          else st1
        else st1
      (st2, true)

/-- The effect of a stage's command loop on shell-only commands: commands
reached while the run is no longer running are skipped, the others run
through `shellStep`. -/
def shellFold (ext : Ext) (rc : RunConf) (ctx : RCtx) :
    List Cmd → EngState → EngState
  | [], st => st
  | c :: rest, st =>
    if st.state ≠ .running then shellFold ext rc ctx rest st
    else shellFold ext rc ctx rest (shellStep ext rc c ctx st).1

/-- `StageCmdsExec` on a shell-only stage: enter the stage (when the run
is executing) and fold the commands; the wait group completes. -/
def shellStageExec (ext : Ext) (rc : RunConf) (stage : ActExecStage)
    (ctx : RCtx) (st : EngState) : EngState :=
  if st.status ≠ .ok then st
  else if st.state ≠ .running then st
  else
    shellFold ext rc (ctx.withCurrentStage (some stage)) stage.cmds
      (st.emit (.stageEnter ctx.callId stage.name))

/-- The act of the C10 witness: `before` and `final` stages are declared,
`start` is absent, and there is one string flag. -/
def c10Act : Act :=
  .mk
    { name := "foo", flags := ["name"],
      before := some { name := "before", cmds := [{ cmd := "B" }] },
      final := some { name := "final", cmds := [{ cmd := "F" }] } } []

/-- The manifest of the C10 witness. -/
def c10ActFile : ActFile := { locationPath := "/m10", acts := [c10Act] }

/-- The invocation context of the C10 witness. -/
def c10Ctx : RCtx :=
  .mk c10ActFile c10Act none "foo" StrMap.empty StrMap.empty StrMap.empty
    StrMap.empty ["-name=x"] none

/-- Environment of the C10 witness: flag parsing succeeds with
`FlagName=x` and no rest args. -/
def c10Ext : Ext :=
  { parseFlags := fun _ _ => some (StrMap.empty.insert "FlagName" "x", []) }

/-- The trace a parallel shell stage appends per command: the shell event,
followed by the error log exactly when the exit status is positive. -/
def parDelta (ext : Ext) (rc : RunConf) (ctx : RCtx) : List Cmd → List Event
  | [] => []
  | c :: rest =>
    (.shell (cmdLineOf ext rc ctx c) (ext.shellExit (cmdLineOf ext rc ctx c))
        ::
        (if 0 < ext.shellExit (cmdLineOf ext rc ctx c) then
          [.logError (cmdLineOf ext rc ctx c)]
        else [])) ++
      parDelta ext rc ctx rest

/-- The trace a shell stage appends per command while the run is
finishing: just the shell events, all failures suppressed. -/
def finDelta (ext : Ext) (rc : RunConf) (ctx : RCtx) (cmds : List Cmd) :
    List Event :=
  cmds.map fun c =>
    .shell (cmdLineOf ext rc ctx c) (ext.shellExit (cmdLineOf ext rc ctx c))

/-- Start stage of the C4 witness: one shell command `S` that exits 7. -/
def c4S : ActExecStage := { name := "start", cmds := [{ cmd := "S" }] }

/-- Final stage of the C4 witness: one shell command `F`. -/
def c4F : ActExecStage := { name := "final", cmds := [{ cmd := "F" }] }

/-- The act of the C4 witness. -/
def c4Act : Act :=
  .mk { name := "foo", start := some c4S, final := some c4F } []

/-- The manifest of the C4 witness. -/
def c4ActFile : ActFile := { locationPath := "/m4", acts := [c4Act] }

/-- The invocation context of the C4 witness. -/
def c4Ctx : RCtx :=
  .mk c4ActFile c4Act none "foo" StrMap.empty StrMap.empty StrMap.empty
    StrMap.empty [] none

/-- Environment of the C4 witness: the sequential start command `S` fails
with exit status 7, the final command `F` succeeds. -/
def c4Ext : Ext := { shellExit := fun l => if l == "S" then 7 else 0 }

/-- Stage of the C5 failing input: a sequential start stage whose first
shell command fails with exit status 3 and which has a second command. -/
def c5Stage : ActExecStage :=
  { name := "start", parallel := false,
    cmds := [{ cmd := "boom" }, { cmd := "next" }] }

/-- The invocation context of the C5 failing input. -/
def c5Ctx : RCtx :=
  .mk { locationPath := "/m5" } (.mk { name := "foo" } []) none "foo"
    StrMap.empty StrMap.empty StrMap.empty StrMap.empty [] none

/-- Environment of the C5 failing input: an ordinary (non-root) run, where
the SIGQUIT that `exitGracefully` sends to `pid := os.Getegid()` does not
reach the runner (`sigquitReachesSelf` keeps its default `false`). -/
def c5Ext : Ext := { shellExit := fun l => if l == "boom" then 3 else 0 }

/-- The same environment under the behaviour the code evidently intends
(its doc comment: send a signal to the CURRENT process): the signal is
delivered to the runner, as happens under egid 0. -/
def c5ExtDelivered : Ext :=
  { shellExit := fun l => if l == "boom" then 3 else 0,
    sigquitReachesSelf := true }

/-! ## Claim C6 — before-all walk (three-manifest chain) -/

/-- Root manifest of the C6 chain, with before-all command `R`. -/
def c6M1 : ActFile :=
  { locationPath := "/m1",
    beforeAll := some { name := "before", cmds := [{ cmd := "R" }] } }

/-- Middle manifest of the C6 chain, with before-all command `C`. -/
def c6M2 : ActFile :=
  { locationPath := "/m2",
    beforeAll := some { name := "before", cmds := [{ cmd := "C" }] } }

/-- Innermost manifest of the C6 chain, with before-all command `D`. -/
def c6M3 : ActFile :=
  { locationPath := "/m3",
    beforeAll := some { name := "before", cmds := [{ cmd := "D" }] } }

/-- Root context of the C6 chain (act resolved in `/m1`). -/
def c6Ctx1 : RCtx :=
  .mk c6M1 (.mk { name := "a" } []) none "a" StrMap.empty StrMap.empty
    StrMap.empty StrMap.empty [] none

/-- Middle context of the C6 chain (act resolved in `/m2`, parent the
root context). -/
def c6Ctx2 : RCtx :=
  .mk c6M2 (.mk { name := "b" } []) (some c6Ctx1) "a.b" StrMap.empty
    StrMap.empty StrMap.empty StrMap.empty [] none

/-- Innermost context of the C6 chain (act resolved in `/m3`, parent the
middle context). -/
def c6Ctx3 : RCtx :=
  .mk c6M3 (.mk { name := "c" } []) (some c6Ctx2) "a.b.c" StrMap.empty
    StrMap.empty StrMap.empty StrMap.empty [] none

/-- The engine state in which `Exec` calls `ExecBeforeAll` for the C6
chain: running, innermost context already pushed. -/
def c6St : EngState := { callStack := [c6Ctx3] }

/-! ## Claim C7 — `mismatch=allow` on a failed resolution -/

/-- The start stage of the C7 scenario: one act-call command whose target
does not resolve, with `mismatch: allow`. -/
def c7Stage : ActExecStage :=
  { name := "start", cmds := [{ act := "nope", mismatch := "allow" }] }

/-- The act of the C7 scenario. -/
def c7Act : Act := .mk { name := "foo", start := some c7Stage } []

/-- The manifest of the C7 scenario: no act named `nope`. -/
def c7ActFile : ActFile := { locationPath := "/m7", acts := [c7Act] }

/-- Environment of the C7 scenario: only `^foo$` matches `foo`. -/
def c7Ext : Ext :=
  { matchString := fun pat s => .ok (pat == "^foo$" && s == "foo") }

/-- The invocation context of the C7 scenario. -/
def c7Ctx : RCtx :=
  .mk c7ActFile c7Act none "foo" StrMap.empty StrMap.empty StrMap.empty
    StrMap.empty [] none

/-! ## Claim C9 — run descriptor store (`info.go`) -/

/-- `run.Info`, the persisted run descriptor.  The zero value `{}` is what
Go's `var info Info` declares before `json.Unmarshal` fills it. -/
structure Info where
  id : String := ""
  parentActId : String := ""
  nameId : String := ""
  pgid : Int := 0
  pid : Int := 0
  cmdPgids : List Int := []
  childActIds : List String := []
  isKilling : Bool := false
deriving DecidableEq

/-- The filesystem collaborators of `info.go`:
* `fileContent p` — the content of file `p`, `none` when `os.Stat` fails;
* `parseInfo s` — `json.Unmarshal` of `s` into an `Info`: `some` on
  success, `none` on malformed JSON (in which case Go leaves the zero
  value in place and returns an error);
* `dirs` — the subdirectory names `ioutil.ReadDir` lists in the data dir;
* `workDir` — `utils.GetWd()`. -/
structure FsExt where
  fileContent : String → Option String := fun _ => none
  parseInfo : String → Option Info := fun _ => none
  dirs : List String := []
  workDir : String := ""

/-- `path.Join` on the opaque path keys used here. -/
def pathJoin (a b : String) : String := a ++ "/" ++ b

/-- `".actdt"`, the constant `run.ActDataDirName`. -/
def ActDataDirName : String := ".actdt"

/-- `"info.json"`, the constant `run.InfoFileName`. -/
def InfoFileName : String := "info.json"

/-- `run.loadInfoFromFile`: `nil` when `os.Stat` fails; otherwise the file
is read and `json.Unmarshal(fileContent, &info)` is executed with its
error DISCARDED, so a malformed file yields the zero-valued `Info` rather
than `nil`. -/
def loadInfoFromFile (fs : FsExt) (jsonPath : String) : Option Info :=
  match fs.fileContent jsonPath with
  | none => none
  | some content => some ((fs.parseInfo content).getD {})

/-- The directory scan of `run.GetAllInfo`: for each subdirectory load its
`info.json`; a `nil` load removes the directory (collected in the second
component), otherwise the descriptor is collected (first component). -/
def getAllInfoLoop (fs : FsExt) (dataDirPath : String) :
    List String → List Info × List String
  | [] => ([], [])
  | d :: rest =>
    let dirPath := pathJoin dataDirPath d
    let jsonPath := pathJoin dirPath InfoFileName
    let r := getAllInfoLoop fs dataDirPath rest
    match loadInfoFromFile fs jsonPath with
    | none => (r.1, dirPath :: r.2)
    | some info => (info :: r.1, r.2)

/-- `run.GetAllInfo`: scan `<wd>/.actdt`, returning the loaded descriptors
and the pruned directories. -/
def getAllInfo (fs : FsExt) : List Info × List String :=
  getAllInfoLoop fs (pathJoin fs.workDir ActDataDirName) fs.dirs

/-- Filesystem of the C9 counterexample: one run directory `r1` whose
`info.json` exists but holds malformed JSON. -/
def c9Fs : FsExt :=
  { fileContent := fun p =>
      if p == "/w/.actdt/r1/info.json" then some "not json" else none
    parseInfo := fun _ => none
    dirs := ["r1"]
    workDir := "/w" }

/-! ## Theorems -/

/-- C1, counterexample.  The claim's precedence order puts the act
env-file below the run-wide vars, so with `X=a` in the act env-file and
`X=r` in the run-wide vars the claim predicts `X=r`; `MergeVars` actually
yields `X=a`, because `GetLocalVars` folds both env files into the local
vars, which are merged after the run-wide vars and the runtime dotenv. -/
theorem mergeVars_actEnvFile_beats_runWide :
    mergeVars c1Ext c1Rc c1Ctx "X" = some "a" ∧
      (some "a" : Option String) ≠ some "r" := by
  exact ⟨by decide, by decide⟩

/-- C1, amended.  The precedence actually implemented by `MergeVars` and
`GetLocalVars` is, from lowest to highest: OS environment < run-wide vars
< runtime dotenv < parent-local vars < manifest env-file < act env-file <
invocation-local vars < run-level act-runtime vars < invocation
act-runtime vars < flag values; in particular the act env-file overrides
the run-wide vars.  Stated as the lookup chain for every key other than
the synthesized `CliArgs`. -/
theorem mergeVars_precedence (ext : Ext) (rc : RunConf) (ctx : RCtx)
    (k : String) (hk : k ≠ "CliArgs") :
    mergeVars ext rc ctx k =
        ((ctx.flagVals k).orElse fun _ =>
          (ctx.actVars k).orElse fun _ =>
            (rc.actVars k).orElse fun _ =>
              (getLocalVars ext ctx k).orElse fun _ =>
                (ext.readDotenv rc.envVarsFilePath k).orElse fun _ =>
                  (rc.vars k).orElse fun _ => environToMap ext.environ k) ∧
      getLocalVars ext ctx k =
        ((ctx.vars k).orElse fun _ =>
          (actEnvFileVars ext ctx k).orElse fun _ =>
            (manifestEnvFileVars ext ctx k).orElse fun _ =>
              ctx.parentVars k) := by
  constructor
  · simp [mergeVars, StrMap.insert, StrMap.over, hk]
  · simp [getLocalVars, StrMap.over]

/-- C1, witness for the amended theorem at the concrete C1 scenario. -/
theorem mergeVars_precedence_witness :
    mergeVars c1Ext c1Rc c1Ctx "X" =
        ((c1Ctx.flagVals "X").orElse fun _ =>
          (c1Ctx.actVars "X").orElse fun _ =>
            (c1Rc.actVars "X").orElse fun _ =>
              (getLocalVars c1Ext c1Ctx "X").orElse fun _ =>
                (c1Ext.readDotenv c1Rc.envVarsFilePath "X").orElse fun _ =>
                  (c1Rc.vars "X").orElse fun _ =>
                    environToMap c1Ext.environ "X") ∧
      getLocalVars c1Ext c1Ctx "X" =
        ((c1Ctx.vars "X").orElse fun _ =>
          (actEnvFileVars c1Ext c1Ctx "X").orElse fun _ =>
            (manifestEnvFileVars c1Ext c1Ctx "X").orElse fun _ =>
              c1Ctx.parentVars "X") :=
  mergeVars_precedence c1Ext c1Rc c1Ctx "X" (by decide)

/-- Unfolding `findActCtx` at a top-level call (no previous context): the
candidates are the manifest's top-level acts and the error path names the
manifest. -/
theorem findActCtx_none_unfold (ext : Ext) (rc : RunConf) (fuel : Nat)
    (actNames : List String) (af : ActFile) :
    findActCtx ext rc (fuel + 1) actNames af none =
      findStep (findActCtx ext rc fuel) ext rc actNames af none
        (targetOf actNames) (ext.dirOf af.locationPath) StrMap.empty
        af.locationPath af.acts := by
  cases actNames <;> rfl

/-- A non-matching candidate is skipped: the loop continues with the rest
of the candidate list. -/
theorem findStep_skip (next : List String → ActFile → Option RCtx → FindRes)
    (ext : Ext) (rc : RunConf) (actNames : List String) (af : ActFile)
    (prevCtx : Option RCtx) (target wd : String) (pv : StrMap)
    (path : String) (a : Act) (rest : List Act)
    (h : goMatch ext ("^" ++ a.data.name ++ "$") target = false) :
    findStep next ext rc actNames af prevCtx target wd pv path (a :: rest) =
      findStep next ext rc actNames af prevCtx target wd pv path rest := by
  simp [findStep, h]

/-- A prefix of non-matching candidates is skipped wholesale. -/
theorem findStep_skip_prefix
    (next : List String → ActFile → Option RCtx → FindRes) (ext : Ext)
    (rc : RunConf) (actNames : List String) (af : ActFile)
    (prevCtx : Option RCtx) (target wd : String) (pv : StrMap)
    (path : String) (pre rest : List Act)
    (h : ∀ b ∈ pre, goMatch ext ("^" ++ b.data.name ++ "$") target = false) :
    findStep next ext rc actNames af prevCtx target wd pv path
        (pre ++ rest) =
      findStep next ext rc actNames af prevCtx target wd pv path rest := by
  induction pre with
  | nil => rfl
  | cons b bs ih =>
    rw [List.cons_append,
      findStep_skip next ext rc actNames af prevCtx target wd pv path b _
        (h b (by simp))]
    exact ih fun x hx => h x (by simp [hx])

/-- When no candidate matches, the loop falls through to the
`"act <target> not found in <path>"` error. -/
theorem findStep_err_of_all_nonmatch
    (next : List String → ActFile → Option RCtx → FindRes) (ext : Ext)
    (rc : RunConf) (actNames : List String) (af : ActFile)
    (prevCtx : Option RCtx) (target wd : String) (pv : StrMap)
    (path : String) (acts : List Act)
    (h : ∀ a ∈ acts, goMatch ext ("^" ++ a.data.name ++ "$") target = false) :
    findStep next ext rc actNames af prevCtx target wd pv path acts =
      .err ("act " ++ target ++ " not found in " ++ path) := by
  induction acts with
  | nil => rfl
  | cons a rest ih =>
    rw [findStep_skip next ext rc actNames af prevCtx target wd pv path a rest
        (h a (by simp))]
    exact ih fun b hb => h b (by simp [hb])

/-- A matching candidate with no `redirect`, no `include` and no children
ends the resolution with a context for that act. -/
theorem findStep_match_terminal
    (next : List String → ActFile → Option RCtx → FindRes) (ext : Ext)
    (rc : RunConf) (actNames : List String) (af : ActFile)
    (prevCtx : Option RCtx) (target wd : String) (pv : StrMap)
    (path : String) (a : Act) (rest : List Act)
    (hm : goMatch ext ("^" ++ a.data.name ++ "$") target = true)
    (hr : a.data.redirect = "") (hi : a.data.includePath = "")
    (ha : a.acts = []) :
    ∃ c, findStep next ext rc actNames af prevCtx target wd pv path
          (a :: rest) = .ok c ∧
        c.act = a ∧
        c.callId =
          (match prevCtx with
          | some p => goJoinDot (goSplitDot p.callId ++ [target])
          | none => target) := by
  refine ⟨?_, ?_, ?_, ?_⟩
  · exact
      (RCtx.mk af a prevCtx ""
          StrMap.empty StrMap.empty
          (((StrMap.empty.insert "ActName" target).insert "ActFilePath"
                af.locationPath).insert "ActFileDir"
            (ext.dirOf af.locationPath)) pv [] none).withCallId
        (match prevCtx with
        | some p => goJoinDot (goSplitDot p.callId ++ [target])
        | none => target)
  · simp [findStep, hm, hr, hi, ha]
  · cases prevCtx <;> rfl
  · cases prevCtx <;> rfl

/-- C2: at every resolution step of a top-level lookup the candidates are
iterated in declaration order and matched against the anchored regex
`^name$`.  First conjunct (not found): when no candidate matches,
resolution fails with exactly the error
`act <target> not found in <manifest-path>`.  Second conjunct (first
match wins): whenever the candidate list splits as a non-matching prefix
followed by a matching act with no forwarding fields, resolution returns
a context for exactly that act — whatever follows it in the list — with
the target as its call id.  The two conjuncts carry their own (mutually
exclusive) hypotheses, so each applies on its own. -/
theorem findActCtx_first_match_and_not_found (ext : Ext) (rc : RunConf)
    (fuel : Nat) (actNames : List String) (af : ActFile) :
    ((∀ b ∈ af.acts,
        goMatch ext ("^" ++ b.data.name ++ "$") (targetOf actNames) =
          false) →
      findActCtx ext rc (fuel + 1) actNames af none =
        .err ("act " ++ targetOf actNames ++ " not found in " ++
          af.locationPath)) ∧
      ∀ pre a post, af.acts = pre ++ a :: post →
        (∀ b ∈ pre,
          goMatch ext ("^" ++ b.data.name ++ "$") (targetOf actNames) =
            false) →
        goMatch ext ("^" ++ a.data.name ++ "$") (targetOf actNames) =
          true →
        a.data.redirect = "" → a.data.includePath = "" → a.acts = [] →
        (findActCtx ext rc (fuel + 1) actNames af none).ctxAct = some a ∧
          (findActCtx ext rc (fuel + 1) actNames af none).ctxCallId =
            some (targetOf actNames) := by
  refine ⟨?_, ?_⟩
  · intro hall
    rw [findActCtx_none_unfold]
    exact findStep_err_of_all_nonmatch _ _ _ _ _ _ _ _ _ _ _ hall
  · intro pre a post hacts hpre hm hr hi ha
    have hskip :
        findStep (findActCtx ext rc fuel) ext rc actNames af none
            (targetOf actNames) (ext.dirOf af.locationPath) StrMap.empty
            af.locationPath af.acts =
          findStep (findActCtx ext rc fuel) ext rc actNames af none
            (targetOf actNames) (ext.dirOf af.locationPath) StrMap.empty
            af.locationPath (a :: post) := by
      rw [hacts]
      exact findStep_skip_prefix _ _ _ _ _ _ _ _ _ _ _ _ hpre
    obtain ⟨c, hc, hca, hcc⟩ :=
      findStep_match_terminal (findActCtx ext rc fuel) ext rc actNames af
        none (targetOf actNames) (ext.dirOf af.locationPath) StrMap.empty
        af.locationPath a post hm hr hi ha
    rw [findActCtx_none_unfold, hskip, hc]
    simp [FindRes.ctxAct, FindRes.ctxCallId, hca, hcc]

/-- The first matching candidate dispatches: `redirect` recurses with the
UNCHANGED segment list against the referenced manifest; `include` recurses
with `actNames[1:]` against the referenced manifest — faulting when the
segment list is empty; and those equations are what the first matching
candidate determines, however the candidate list continues. -/
theorem findStep_match_dispatch
    (next : List String → ActFile → Option RCtx → FindRes) (ext : Ext)
    (rc : RunConf) (actNames : List String) (af : ActFile)
    (prevCtx : Option RCtx) (target wd : String) (pv : StrMap)
    (path : String) (a : Act) (rest : List Act)
    (hm : goMatch ext ("^" ++ a.data.name ++ "$") target = true) :
    (a.data.redirect ≠ "" →
        findStep next ext rc actNames af prevCtx target wd pv path
            (a :: rest) =
          next actNames
            (ext.readActFile
              (ext.resolvePath wd
                (ext.compileTemplate a.data.redirect
                  (matchVars ext rc af prevCtx target pv a))))
            (some (matchCtx ext af prevCtx target pv a))) ∧
      (a.data.redirect = "" → a.data.includePath ≠ "" →
        ∀ n tl, actNames = n :: tl →
          findStep next ext rc actNames af prevCtx target wd pv path
              (a :: rest) =
            next tl
              (ext.readActFile
                (ext.resolvePath wd
                  (ext.compileTemplate a.data.includePath
                    (matchVars ext rc af prevCtx target pv a))))
              (some (matchCtx ext af prevCtx target pv a))) ∧
      (a.data.redirect = "" → a.data.includePath ≠ "" → actNames = [] →
        findStep next ext rc actNames af prevCtx target wd pv path
            (a :: rest) =
          .crashed "slice bounds out of range") := by
  refine ⟨?_, ?_, ?_⟩
  · intro hr
    simp [findStep, hm, hr, matchVars, matchCtx, matchCtx0, matchActVars,
      matchCallId]
  · intro hr hi n tl hn
    subst hn
    simp [findStep, hm, hr, hi, matchVars, matchCtx, matchCtx0,
      matchActVars, matchCallId]
  · intro hr hi hn
    subst hn
    simp [findStep, hm, hr, hi]

/-- C3, amended, at a top-level resolution step whose first matching
candidate is `a`: `redirect` recurses into the referenced manifest with
the UNCHANGED segment list; `include` always recurses with `actNames[1:]`
— consuming exactly one segment when at least one remains, and faulting
on the slice when the segment list is empty (instead of the include being
skipped); the target of an empty segment list is the index name `_`
(`targetOf`). -/
theorem findActCtx_redirect_include_dispatch (ext : Ext) (rc : RunConf)
    (fuel : Nat) (actNames : List String) (af : ActFile)
    (pre post : List Act) (a : Act)
    (hacts : af.acts = pre ++ a :: post)
    (hpre : ∀ b ∈ pre,
      goMatch ext ("^" ++ b.data.name ++ "$") (targetOf actNames) = false)
    (hm : goMatch ext ("^" ++ a.data.name ++ "$") (targetOf actNames) =
      true) :
    (a.data.redirect ≠ "" →
        findActCtx ext rc (fuel + 1) actNames af none =
          findActCtx ext rc fuel actNames
            (ext.readActFile
              (ext.resolvePath (ext.dirOf af.locationPath)
                (ext.compileTemplate a.data.redirect
                  (matchVars ext rc af none (targetOf actNames)
                    StrMap.empty a))))
            (some (matchCtx ext af none (targetOf actNames) StrMap.empty
              a))) ∧
      (a.data.redirect = "" → a.data.includePath ≠ "" →
        ∀ n tl, actNames = n :: tl →
          findActCtx ext rc (fuel + 1) actNames af none =
            findActCtx ext rc fuel tl
              (ext.readActFile
                (ext.resolvePath (ext.dirOf af.locationPath)
                  (ext.compileTemplate a.data.includePath
                    (matchVars ext rc af none (targetOf actNames)
                      StrMap.empty a))))
              (some (matchCtx ext af none (targetOf actNames) StrMap.empty
                a))) ∧
      (a.data.redirect = "" → a.data.includePath ≠ "" → actNames = [] →
        findActCtx ext rc (fuel + 1) actNames af none =
          .crashed "slice bounds out of range") := by
  have hbase :
      findActCtx ext rc (fuel + 1) actNames af none =
        findStep (findActCtx ext rc fuel) ext rc actNames af none
          (targetOf actNames) (ext.dirOf af.locationPath) StrMap.empty
          af.locationPath (a :: post) := by
    rw [findActCtx_none_unfold, hacts]
    exact findStep_skip_prefix _ _ _ _ _ _ _ _ _ _ _ _ hpre
  obtain ⟨h1, h2, h3⟩ :=
    findStep_match_dispatch (findActCtx ext rc fuel) ext rc actNames af
      none (targetOf actNames) (ext.dirOf af.locationPath) StrMap.empty
      af.locationPath a post hm
  refine ⟨?_, ?_, ?_⟩
  · intro hr
    rw [hbase]
    exact h1 hr
  · intro hr hi n tl hn
    rw [hbase]
    exact h2 hr hi n tl hn
  · intro hr hi hn
    rw [hbase]
    exact h3 hr hi hn

/-- C3, counterexample.  The claim says `include` is followed only when
more segments remain, so resolving the empty segment list against an
index act with `include` would return that act's context; instead the
source executes `actNames[1:]` on the empty slice and faults. -/
theorem include_with_empty_segments_faults :
    findActCtx c3Ext {} 2 [] c3ActFile none =
      .crashed "slice bounds out of range" := by
  rfl

/-- C3, witness for the amended dispatch theorem at the concrete
counterexample input (the empty-segment include conjunct fires; the other
conjuncts hold vacuously there). -/
theorem findActCtx_redirect_include_dispatch_witness :
    (c3Act.data.redirect ≠ "" →
        findActCtx c3Ext {} 2 [] c3ActFile none =
          findActCtx c3Ext {} 1 []
            (c3Ext.readActFile
              (c3Ext.resolvePath (c3Ext.dirOf c3ActFile.locationPath)
                (c3Ext.compileTemplate c3Act.data.redirect
                  (matchVars c3Ext {} c3ActFile none (targetOf [])
                    StrMap.empty c3Act))))
            (some (matchCtx c3Ext c3ActFile none (targetOf [])
              StrMap.empty c3Act))) ∧
      (c3Act.data.redirect = "" → c3Act.data.includePath ≠ "" →
        ∀ n tl, ([] : List String) = n :: tl →
          findActCtx c3Ext {} 2 [] c3ActFile none =
            findActCtx c3Ext {} 1 tl
              (c3Ext.readActFile
                (c3Ext.resolvePath (c3Ext.dirOf c3ActFile.locationPath)
                  (c3Ext.compileTemplate c3Act.data.includePath
                    (matchVars c3Ext {} c3ActFile none (targetOf [])
                      StrMap.empty c3Act))))
              (some (matchCtx c3Ext c3ActFile none (targetOf [])
                StrMap.empty c3Act))) ∧
      (c3Act.data.redirect = "" → c3Act.data.includePath ≠ "" →
        ([] : List String) = [] →
        findActCtx c3Ext {} 2 [] c3ActFile none =
          .crashed "slice bounds out of range") :=
  findActCtx_redirect_include_dispatch c3Ext {} 1 [] c3ActFile [] [] c3Act
    rfl (by simp) (by decide)

/-- C2, witness exercising both halves against the same manifest
`[zoo, foo-.+, foo-bar]`: resolving `nope` (which no act matches) yields
exactly the not-found error, and resolving `foo-bar` selects the earlier
`foo-.+` act even though the later act matches too. -/
theorem findActCtx_first_match_and_not_found_witness :
    findActCtx c2Ext {} 1 ["nope"] c2ActFile none =
        .err ("act " ++ targetOf ["nope"] ++ " not found in " ++
          c2ActFile.locationPath) ∧
      (findActCtx c2Ext {} 1 ["foo-bar"] c2ActFile none).ctxAct =
          some c2Wild ∧
        (findActCtx c2Ext {} 1 ["foo-bar"] c2ActFile none).ctxCallId =
          some (targetOf ["foo-bar"]) :=
  ⟨(findActCtx_first_match_and_not_found c2Ext {} 0 ["nope"] c2ActFile).1
      (by
        intro b hb
        fin_cases hb <;> decide),
    (findActCtx_first_match_and_not_found c2Ext {} 0 ["foo-bar"]
        c2ActFile).2 [c2Zoo] c2Wild [c2Exact] rfl
      (by
        intro b hb
        simp only [List.mem_singleton] at hb
        subst hb
        decide)
      (by decide) rfl rfl rfl⟩

/-- C8, counterexample.  The claim says a name whose regex fails to
compile makes resolution fail fatally; instead the compilation error is
discarded (`match, _ := regexp.MatchString(...)`), the act is skipped as a
non-match, and resolution falls through to the ordinary not-found
error. -/
theorem bad_regex_act_is_skipped_not_fatal :
    findActCtx c8Ext {} 1 ["x"] c8ActFile none =
      .err ("act x not found in /m/actfile.yml") := by
  rfl

/-- C8, amended: when compiling an act's anchored name pattern fails, the
error is discarded and the act behaves exactly as a non-matching
candidate — the resolution loop continues with the remaining acts. -/
theorem findStep_regex_error_skipped
    (next : List String → ActFile → Option RCtx → FindRes) (ext : Ext)
    (rc : RunConf) (actNames : List String) (af : ActFile)
    (prevCtx : Option RCtx) (target wd : String) (pv : StrMap)
    (path : String) (a : Act) (rest : List Act)
    (he : ext.matchString ("^" ++ a.data.name ++ "$") target = .error ()) :
    findStep next ext rc actNames af prevCtx target wd pv path (a :: rest) =
      findStep next ext rc actNames af prevCtx target wd pv path rest := by
  apply findStep_skip
  simp [goMatch, he]

/-- C8, witness for the amended theorem: the invalid-name act of the C8
scenario is skipped by the resolution loop. -/
theorem findStep_regex_error_skipped_witness :
    findStep (findActCtx c8Ext {} 0) c8Ext {} ["x"] c8ActFile none "x"
        (c8Ext.dirOf c8ActFile.locationPath) StrMap.empty
        c8ActFile.locationPath [c8Act] =
      findStep (findActCtx c8Ext {} 0) c8Ext {} ["x"] c8ActFile none "x"
        (c8Ext.dirOf c8ActFile.locationPath) StrMap.empty
        c8ActFile.locationPath [] :=
  findStep_regex_error_skipped (findActCtx c8Ext {} 0) c8Ext {} ["x"]
    c8ActFile none "x" (c8Ext.dirOf c8ActFile.locationPath) StrMap.empty
    c8ActFile.locationPath c8Act [] rfl

/-- On a command with no loop and no act call, `CmdExec` is exactly
`shellStep`, at every fuel level. -/
theorem cmdExecF_shell (ext : Ext) (rc : RunConf) (fuel : Nat)
    (prev : Engine) (c : Cmd) (ctx : RCtx) (st : EngState)
    (hl : c.loop = none) (ha : c.act = "") :
    cmdExecF ext rc fuel prev c ctx st = shellStep ext rc c ctx st := by
  simp [cmdExecF, shellStep, cmdLineOf, hl, ha]

/-- `run.Stop` only touches the state field and the trace. -/
theorem stop_fields (st : EngState) :
    (stop st).status = st.status ∧ (stop st).isFinishing = st.isFinishing ∧
      (stop st).callStack = st.callStack ∧ (stop st).marked = st.marked ∧
      ((stop st).state = st.state ∨ (stop st).state = .stopped) ∧
      ∃ d, (stop st).trace = st.trace ++ d := by
  unfold stop
  split
  · exact ⟨rfl, rfl, rfl, rfl, Or.inr rfl, [.killChildren], rfl⟩
  · exact ⟨rfl, rfl, rfl, rfl, Or.inl rfl, [], by simp [EngState.emit]⟩

/-- `FatalErrorWithCode` only touches the exit code, the kill flag, the
state field and the trace. -/
theorem fatalErrorWithCode_fields (ext : Ext) (code : Int) (st : EngState) :
    (fatalErrorWithCode ext code st).status = st.status ∧
      (fatalErrorWithCode ext code st).isFinishing = st.isFinishing ∧
      (fatalErrorWithCode ext code st).callStack = st.callStack ∧
      (fatalErrorWithCode ext code st).marked = st.marked ∧
      ((fatalErrorWithCode ext code st).state = st.state ∨
        (fatalErrorWithCode ext code st).state = .stopped) ∧
      ∃ d, (fatalErrorWithCode ext code st).trace = st.trace ++ d := by
  unfold fatalErrorWithCode exitGracefully
  split
  · exact ⟨rfl, rfl, rfl, rfl, Or.inl rfl, [], by simp⟩
  · dsimp only
    split
    · have h := stop_fields { st with killInProgress := true, exitCode := code }
      simpa using h
    · exact ⟨rfl, rfl, rfl, rfl, Or.inl rfl, [], by simp⟩

/-- The first component of `shellStep` only touches the exit code, the
kill flag, the state field (running may become stopped) and the trace. -/
theorem shellStep_fields (ext : Ext) (rc : RunConf) (c : Cmd) (ctx : RCtx)
    (st : EngState) :
    (shellStep ext rc c ctx st).1.isFinishing = st.isFinishing ∧
      (shellStep ext rc c ctx st).1.callStack = st.callStack ∧
      (shellStep ext rc c ctx st).1.marked = st.marked ∧
      ((shellStep ext rc c ctx st).1.state = st.state ∨
        (shellStep ext rc c ctx st).1.state = .stopped) ∧
      ∃ d, (shellStep ext rc c ctx st).1.trace = st.trace ++ d := by
  unfold shellStep
  split
  · exact ⟨rfl, rfl, rfl, Or.inl rfl, [], by simp⟩
  · split
    · exact ⟨rfl, rfl, rfl, Or.inl rfl, [], by simp⟩
    · split
      · exact ⟨rfl, rfl, rfl, Or.inl rfl, [], by simp⟩
      · dsimp only
        split
        · split
          · split
            · exact ⟨rfl, rfl, rfl, Or.inl rfl,
                [.shell (cmdLineOf ext rc ctx c)
                    (ext.shellExit (cmdLineOf ext rc ctx c)),
                  .logError (cmdLineOf ext rc ctx c)], by
                  simp [EngState.emit]⟩

            · have h :=
                fatalErrorWithCode_fields ext
                  (ext.shellExit (cmdLineOf ext rc ctx c))
                  (st.emit (.shell (cmdLineOf ext rc ctx c)
                    (ext.shellExit (cmdLineOf ext rc ctx c))))
              refine ⟨h.2.1, h.2.2.1, h.2.2.2.1, ?_, ?_⟩
              · simpa [EngState.emit] using h.2.2.2.2.1
              · obtain ⟨d, hd⟩ := h.2.2.2.2.2
                exact ⟨[.shell (cmdLineOf ext rc ctx c)
                    (ext.shellExit (cmdLineOf ext rc ctx c))] ++ d, by
                  simp [EngState.emit] at hd ⊢
                  simp [hd]⟩
          · exact ⟨rfl, rfl, rfl, Or.inl rfl,
              [.shell (cmdLineOf ext rc ctx c)
                  (ext.shellExit (cmdLineOf ext rc ctx c))], by
                simp [EngState.emit]⟩
        · exact ⟨rfl, rfl, rfl, Or.inl rfl,
            [.shell (cmdLineOf ext rc ctx c)
                (ext.shellExit (cmdLineOf ext rc ctx c))], by
              simp [EngState.emit]⟩

/-- `shellStep` preserves an `ok` status when the current stage is set. -/
theorem shellStep_status (ext : Ext) (rc : RunConf) (c : Cmd) (ctx : RCtx)
    (st : EngState) (cs : ActExecStage) (hcs : ctx.currentStage = some cs)
    (hok : st.status = .ok) :
    (shellStep ext rc c ctx st).1.status = .ok := by
  unfold shellStep
  rw [hcs]
  have h1 : ¬st.status ≠ RStatus.ok := by simp [hok]
  simp only [h1, if_false]
  split
  · exact hok
  · dsimp only
    split
    · split
      · split
        · simpa [EngState.emit] using hok
        · have h :=
            (fatalErrorWithCode_fields ext
              (ext.shellExit (cmdLineOf ext rc ctx c))
              (st.emit (.shell (cmdLineOf ext rc ctx c)
                (ext.shellExit (cmdLineOf ext rc ctx c))))).1
          simpa [EngState.emit, hok] using h
      · simpa [EngState.emit] using hok
    · simpa [EngState.emit] using hok

/-- `shellStep` signals the wait group when invoked on an executing run
with the current stage set. -/
theorem shellStep_done (ext : Ext) (rc : RunConf) (c : Cmd) (ctx : RCtx)
    (st : EngState) (cs : ActExecStage) (hcs : ctx.currentStage = some cs)
    (hok : st.status = .ok) (hrun : st.state = .running) :
    (shellStep ext rc c ctx st).2 = true := by
  unfold shellStep
  rw [hcs]
  simp [hok, hrun]

/-- `shellFold` preserves the `ok` status, the call stack, the finishing
flag and the marker set; it only ever moves the state towards `stopped`
and appends to the trace. -/
theorem shellFold_fields (ext : Ext) (rc : RunConf) (ctx : RCtx)
    (cs : ActExecStage) (hcs : ctx.currentStage = some cs) :
    ∀ (cmds : List Cmd) (st : EngState), st.status = .ok →
      (shellFold ext rc ctx cmds st).status = .ok ∧
        (shellFold ext rc ctx cmds st).callStack = st.callStack ∧
        (shellFold ext rc ctx cmds st).isFinishing = st.isFinishing ∧
        (shellFold ext rc ctx cmds st).marked = st.marked ∧
        ((shellFold ext rc ctx cmds st).state = st.state ∨
          (shellFold ext rc ctx cmds st).state = .stopped) ∧
        ∃ d, (shellFold ext rc ctx cmds st).trace = st.trace ++ d := by
  intro cmds
  induction cmds with
  | nil =>
    intro st hok
    exact ⟨hok, rfl, rfl, rfl, Or.inl rfl, [], by simp [shellFold]⟩
  | cons c rest ih =>
    intro st hok
    by_cases hrun : st.state = .running
    · have hstep := shellStep_fields ext rc c ctx st
      have hst1 : (shellStep ext rc c ctx st).1.status = .ok := by
        unfold shellStep
        rw [hcs]
        have h1 : ¬st.status ≠ RStatus.ok := by simp [hok]
        simp only [h1, if_false]
        split
        · exact hok
        · dsimp only
          split
          · split
            · split
              · simpa [EngState.emit] using hok
              · have h :=
                  (fatalErrorWithCode_fields ext
                    (ext.shellExit (cmdLineOf ext rc ctx c))
                    (st.emit (.shell (cmdLineOf ext rc ctx c)
                      (ext.shellExit (cmdLineOf ext rc ctx c))))).1
                simpa [EngState.emit, hok] using h
            · simpa [EngState.emit] using hok
          · simpa [EngState.emit] using hok
      have hrec := ih (shellStep ext rc c ctx st).1 hst1
      have hfold :
          shellFold ext rc ctx (c :: rest) st =
            shellFold ext rc ctx rest (shellStep ext rc c ctx st).1 := by
        simp [shellFold, hrun]
      rw [hfold]
      refine ⟨hrec.1, ?_, ?_, ?_, ?_, ?_⟩
      · rw [hrec.2.1, hstep.2.1]
      · rw [hrec.2.2.1, hstep.1]
      · rw [hrec.2.2.2.1, hstep.2.2.1]
      · rcases hrec.2.2.2.2.1 with h | h
        · rw [h]
          rcases hstep.2.2.2.1 with h' | h'
          · exact Or.inl h'
          · exact Or.inr h'
        · exact Or.inr h
      · obtain ⟨d1, hd1⟩ := hstep.2.2.2.2
        obtain ⟨d2, hd2⟩ := hrec.2.2.2.2.2
        exact ⟨d1 ++ d2, by rw [hd2, hd1, List.append_assoc]⟩
    · have hfold :
          shellFold ext rc ctx (c :: rest) st =
            shellFold ext rc ctx rest st := by
        simp [shellFold, hrun]
      rw [hfold]
      exact ih st hok

/-- Restatement of `shellStep_status` for reuse below. -/
theorem shellStep_status_ok (ext : Ext) (rc : RunConf) (c : Cmd)
    (ctx : RCtx) (st : EngState) (cs : ActExecStage)
    (hcs : ctx.currentStage = some cs) (hok : st.status = .ok) :
    (shellStep ext rc c ctx st).1.status = .ok :=
  shellStep_status ext rc c ctx st cs hcs hok

/-- The command loop of `StageCmdsExec` on shell-only commands: it is the
`shellFold` of the commands, and every command signals its wait group
slot, so the loop's signal count equals the number of commands. -/
theorem stageLoop_shell (ext : Ext) (rc : RunConf) (fuel : Nat)
    (prev : Engine) (ctx : RCtx) (cs : ActExecStage)
    (hcs : ctx.currentStage = some cs) :
    ∀ (cmds : List Cmd) (st : EngState), st.status = .ok →
      (∀ c ∈ cmds, c.loop = none ∧ c.act = "") →
      stageLoop (cmdExecF ext rc fuel prev) ctx cmds st =
        (shellFold ext rc ctx cmds st, cmds.length) := by
  intro cmds
  induction cmds with
  | nil =>
    intro st hok _
    simp [stageLoop, shellFold]
  | cons c rest ih =>
    intro st hok hsh
    have hnotok : ¬st.status ≠ RStatus.ok := by simp [hok]
    by_cases hrun : st.state = .running
    · have hce :
          cmdExecF ext rc fuel prev c ctx st = shellStep ext rc c ctx st :=
        cmdExecF_shell ext rc fuel prev c ctx st (hsh c (by simp)).1
          (hsh c (by simp)).2
      have hdone : (shellStep ext rc c ctx st).2 = true :=
        shellStep_done ext rc c ctx st cs hcs hok hrun
      have hst1 : (shellStep ext rc c ctx st).1.status = .ok :=
        shellStep_status_ok ext rc c ctx st cs hcs hok
      have hrec := ih (shellStep ext rc c ctx st).1 hst1
        (fun x hx => hsh x (by simp [hx]))
      have hnr : ¬st.state ≠ GoExecState.running := by simp [hrun]
      simp only [stageLoop, hnotok, if_false, hnr, hce, hrec, hdone,
        if_true]
      simp [shellFold, hrun]
    · have hrec := ih st hok (fun x hx => hsh x (by simp [hx]))
      simp only [stageLoop, hnotok, if_false, hrun, ne_eq,
        not_false_eq_true, if_true, hrec]
      simp [shellFold, hrun]

/-- The engine's stage executor on a shell-only stage equals
`shellStageExec` (in particular it never hangs there). -/
theorem stageExecF_shell (ext : Ext) (rc : RunConf) (fuel : Nat)
    (prev : Engine) (stage : ActExecStage) (ctx : RCtx) (st : EngState)
    (hsh : ∀ c ∈ stage.cmds, c.loop = none ∧ c.act = "") :
    stageExecF (cmdExecF ext rc fuel prev) stage ctx st =
      shellStageExec ext rc stage ctx st := by
  unfold stageExecF shellStageExec
  split
  · rfl
  · split
    · rfl
    · rename_i hok hrun
      have hok' : st.status = .ok := by
        by_contra h
        exact hok h
      have hcs :
          (ctx.withCurrentStage (some stage)).currentStage = some stage := by
        cases ctx
        rfl
      have hl :=
        stageLoop_shell ext rc fuel prev (ctx.withCurrentStage (some stage))
          stage hcs stage.cmds (st.emit (.stageEnter ctx.callId stage.name))
          (by simpa [EngState.emit] using hok') hsh
      simp only [hl]
      simp

/-- `withFlagVals` does not change the act of a context. -/
theorem RCtx.act_withFlagVals (ctx : RCtx) (fv : StrMap) :
    (ctx.withFlagVals fv).act = ctx.act := by
  cases ctx
  rfl

/-- `withArgs` does not change the act of a context. -/
theorem RCtx.act_withArgs (ctx : RCtx) (ar : List String) :
    (ctx.withArgs ar).act = ctx.act := by
  cases ctx
  rfl

/-- `withFlagVals` does not change the manifest of a context. -/
theorem RCtx.actFile_withFlagVals (ctx : RCtx) (fv : StrMap) :
    (ctx.withFlagVals fv).actFile = ctx.actFile := by
  cases ctx
  rfl

/-- `withArgs` does not change the manifest of a context. -/
theorem RCtx.actFile_withArgs (ctx : RCtx) (ar : List String) :
    (ctx.withArgs ar).actFile = ctx.actFile := by
  cases ctx
  rfl

/-- The before-all walk from a context whose manifest declares no
before-all stage and which has no previous context: it only marks the
manifest (when not already marked) and collects nothing. -/
theorem beforeWalk_noBeforeAll (rc : RunConf) (ctx : RCtx) (fuel : Nat)
    (m : List String) (hba : ctx.actFile.beforeAll = none)
    (hprev : ctx.prev = none) :
    beforeWalk rc ctx (fuel + 1) (some ctx) m [] =
      (if ctx.actFile.locationPath ∈ m then m
        else ctx.actFile.locationPath :: m, [], false) := by
  by_cases hmem : ctx.actFile.locationPath ∈ m
  · simp [beforeWalk, hmem]
  · simp [beforeWalk, hmem, hba, hprev]

/-- `ExecBeforeAll` from such a context only marks the manifest. -/
theorem execBeforeAllF_trivial (rc : RunConf) (fuel : Nat)
    (ea : RCtx → EngState → EngState) (ctx : RCtx) (st : EngState)
    (hok : st.status = .ok) (hba : ctx.actFile.beforeAll = none)
    (hprev : ctx.prev = none) :
    execBeforeAllF rc fuel ea ctx st =
      { st with
        marked :=
          if ctx.actFile.locationPath ∈ st.marked then st.marked
          else ctx.actFile.locationPath :: st.marked } := by
  unfold execBeforeAllF
  have hok' : ¬st.status ≠ RStatus.ok := by simp [hok]
  simp only [hok', if_false,
    beforeWalk_noBeforeAll rc ctx fuel st.marked hba hprev]
  rfl

/-- Unfolding one engine level. -/
theorem engine_succ (ext : Ext) (rc : RunConf) (fuel : Nat) :
    engine ext rc (fuel + 1) =
      Engine.step ext rc fuel (engine ext rc fuel) := rfl

/-- The engine functions at a successor fuel level, spelled out. -/
theorem engine_succ_fields (ext : Ext) (rc : RunConf) (fuel : Nat) :
    (engine ext rc (fuel + 1)).cmdExec =
        cmdExecF ext rc fuel (engine ext rc fuel) ∧
      (engine ext rc (fuel + 1)).stageExec =
        stageExecF (cmdExecF ext rc fuel (engine ext rc fuel)) ∧
      (engine ext rc (fuel + 1)).finalStageExec =
        finalStageExecF
          (stageExecF (cmdExecF ext rc fuel (engine ext rc fuel))) ∧
      (engine ext rc (fuel + 1)).finish =
        finishF
          (finalStageExecF
            (stageExecF (cmdExecF ext rc fuel (engine ext rc fuel)))) ∧
      (engine ext rc (fuel + 1)).execBeforeAll =
        execBeforeAllF rc fuel (engine ext rc fuel).execAct ∧
      (engine ext rc (fuel + 1)).execAct =
        execActF ext (execBeforeAllF rc fuel (engine ext rc fuel).execAct)
          (stageExecF (cmdExecF ext rc fuel (engine ext rc fuel)))
          (finalStageExecF
            (stageExecF (cmdExecF ext rc fuel (engine ext rc fuel))))
          (finishF
            (finalStageExecF
              (stageExecF (cmdExecF ext rc fuel (engine ext rc fuel))))) :=
  ⟨rfl, rfl, rfl, rfl, rfl, rfl⟩

/-- C10: executing an invocation whose resolved act has no `start` stage
performs no stage execution at all — after the (possibly trivial) flag
parsing, `Exec` returns with only the call-stack push and the before-all
marker as effects: the trace, state, exit code and every other field are
untouched, so neither a declared `before` stage nor a declared
`final`/`teardown` stage of the act ever runs.  (Scoped to a top-level
invocation of a manifest without a before-all stage.) -/
theorem execAct_no_start_skips_stages (ext : Ext) (rc : RunConf)
    (fuel : Nat) (ctx : RCtx) (st : EngState) (hok : st.status = .ok)
    (hba : ctx.actFile.beforeAll = none) (hprev : ctx.prev = none)
    (hstart : ctx.act.data.start = none) :
    (ctx.act.data.flags = [] →
        (engine ext rc (fuel + 1)).execAct ctx st =
          { st with
            callStack := st.callStack ++ [ctx]
            marked :=
              if ctx.actFile.locationPath ∈ st.marked then st.marked
              else ctx.actFile.locationPath :: st.marked }) ∧
      (∀ fv rest, ctx.act.data.flags ≠ [] →
        ext.parseFlags ctx.act.data.flags ctx.args = some (fv, rest) →
        (engine ext rc (fuel + 1)).execAct ctx st =
          { st with
            callStack :=
              st.callStack ++ [(ctx.withFlagVals fv).withArgs rest]
            marked :=
              if ctx.actFile.locationPath ∈ st.marked then st.marked
              else ctx.actFile.locationPath :: st.marked }) := by
  have hproj := (engine_succ_fields ext rc fuel).2.2.2.2.2
  have hok' : ¬st.status ≠ RStatus.ok := by simp [hok]
  constructor
  · intro hflags
    rw [hproj]
    unfold execActF
    simp [hok', hflags, hstart, hok, List.dropLast_concat,
      execBeforeAllF_trivial rc fuel (engine ext rc fuel).execAct ctx _ _
        hba hprev]
  · intro fv rest hflags hparse
    rw [hproj]
    unfold execActF
    simp [hok', hflags, hparse, hstart, hok, List.dropLast_concat,
      RCtx.act_withFlagVals, RCtx.act_withArgs,
      execBeforeAllF_trivial rc fuel (engine ext rc fuel).execAct ctx _ _
        hba hprev]

/-- C10, witness at the concrete scenario: the flag-parsing conjunct
fires; the trace stays empty, so the declared `before` and `final` stages
never ran. -/
theorem execAct_no_start_skips_stages_witness :
    (c10Ctx.act.data.flags = [] →
        (engine c10Ext {} 3).execAct c10Ctx {} =
          { ({} : EngState) with
            callStack := ({} : EngState).callStack ++ [c10Ctx]
            marked :=
              if c10Ctx.actFile.locationPath ∈ ({} : EngState).marked then
                ({} : EngState).marked
              else c10Ctx.actFile.locationPath ::
                ({} : EngState).marked }) ∧
      (∀ fv rest, c10Ctx.act.data.flags ≠ [] →
        c10Ext.parseFlags c10Ctx.act.data.flags c10Ctx.args =
          some (fv, rest) →
        (engine c10Ext {} 3).execAct c10Ctx {} =
          { ({} : EngState) with
            callStack :=
              ({} : EngState).callStack ++
                [(c10Ctx.withFlagVals fv).withArgs rest]
            marked :=
              if c10Ctx.actFile.locationPath ∈ ({} : EngState).marked then
                ({} : EngState).marked
              else c10Ctx.actFile.locationPath ::
                ({} : EngState).marked }) :=
  execAct_no_start_skips_stages c10Ext {} 2 c10Ctx {} rfl rfl rfl rfl

/-- `shellFold` is inert once the run has left the running state (every
remaining command is skipped by the loop's state check). -/
theorem shellFold_not_running (ext : Ext) (rc : RunConf) (ctx : RCtx) :
    ∀ (cmds : List Cmd) (st : EngState), st.state ≠ .running →
      shellFold ext rc ctx cmds st = st := by
  intro cmds
  induction cmds with
  | nil => intro st _; rfl
  | cons c rest ih =>
    intro st hst
    simp only [shellFold, hst, ne_eq, not_false_eq_true, if_true]
    exact ih st hst

/-- A parallel shell stage logs failures and keeps going: the fold leaves
every field but the trace unchanged and the appended trace is
`parDelta`. -/
theorem shellFold_parallel (ext : Ext) (rc : RunConf) (ctx : RCtx)
    (cs : ActExecStage) (hcs : ctx.currentStage = some cs)
    (hpar : cs.parallel = true) :
    ∀ (cmds : List Cmd) (st : EngState), st.status = .ok →
      st.state = .running → st.isFinishing = false →
      shellFold ext rc ctx cmds st =
        { st with trace := st.trace ++ parDelta ext rc ctx cmds } := by
  intro cmds
  induction cmds with
  | nil => intro st _ _ _; simp [shellFold, parDelta]
  | cons c rest ih =>
    intro st hok hrun hfin
    have hrun' : ¬st.state ≠ GoExecState.running := by simp [hrun]
    have hstep :
        (shellStep ext rc c ctx st).1 =
          { st with
            trace := st.trace ++
              (.shell (cmdLineOf ext rc ctx c)
                    (ext.shellExit (cmdLineOf ext rc ctx c)) ::
                (if 0 < ext.shellExit (cmdLineOf ext rc ctx c) then
                  [.logError (cmdLineOf ext rc ctx c)]
                else [])) } := by
      unfold shellStep
      rw [hcs]
      by_cases h0 : 0 < ext.shellExit (cmdLineOf ext rc ctx c)
      · have hne : ext.shellExit (cmdLineOf ext rc ctx c) ≠ 0 := by omega
        simp [hok, hrun, hfin, hne, h0, hpar, EngState.emit]
      · by_cases hz : ext.shellExit (cmdLineOf ext rc ctx c) = 0
        · simp [hok, hrun, hfin, hz, h0, EngState.emit]
        · simp [hok, hrun, hfin, hz, h0, EngState.emit]
    have hfold :
        shellFold ext rc ctx (c :: rest) st =
          shellFold ext rc ctx rest (shellStep ext rc c ctx st).1 := by
      simp [shellFold, hrun]
    rw [hfold, hstep,
      ih _ (by simp [hok]) (by simp [hrun]) (by simp [hfin])]
    simp [parDelta]

/-- While the run is finishing, shell failures are suppressed entirely:
the fold only appends the shell events. -/
theorem shellFold_finishing (ext : Ext) (rc : RunConf) (ctx : RCtx)
    (cs : ActExecStage) (hcs : ctx.currentStage = some cs) :
    ∀ (cmds : List Cmd) (st : EngState), st.status = .ok →
      st.state = .running → st.isFinishing = true →
      shellFold ext rc ctx cmds st =
        { st with trace := st.trace ++ finDelta ext rc ctx cmds } := by
  intro cmds
  induction cmds with
  | nil => intro st _ _ _; simp [shellFold, finDelta]
  | cons c rest ih =>
    intro st hok hrun hfin
    have hstep :
        (shellStep ext rc c ctx st).1 =
          { st with
            trace := st.trace ++
              [.shell (cmdLineOf ext rc ctx c)
                  (ext.shellExit (cmdLineOf ext rc ctx c))] } := by
      unfold shellStep
      rw [hcs]
      simp [hok, hrun, hfin, EngState.emit]
    have hfold :
        shellFold ext rc ctx (c :: rest) st =
          shellFold ext rc ctx rest (shellStep ext rc c ctx st).1 := by
      simp [shellFold, hrun]
    rw [hfold, hstep,
      ih _ (by simp [hok]) (by simp [hrun]) (by simp [hfin])]
    simp [finDelta]

/-- C5: on a sequential stage whose first shell command exits with
status 3, evaluating the engine's stage executor shows the divergence
between the claimed policy and the code.  `CmdExec` calls
`utils.FatalErrorWithCode`, which does set `utils.ExitCode` to the
child's status — but the SIGQUIT meant to begin the graceful shutdown is
sent to `pid := os.Getegid()` (`utils/log.go` lines 42-45), not to the
runner.  First conjunct (an ordinary non-root run, `c5Ext`): the exit
code is 3 and `KillInProgress` is set, but the run is STILL in the
running state and the second command `next` of the stage executes — the
run does not terminate, contradicting the claim.  Second conjunct (the
behaviour the code intends, delivery to self, `c5ExtDelivered`): the run
reaches the stopped state, the registered process groups are killed and
`next` is skipped, exactly the claimed shutdown. -/
theorem sequential_failure_signal_misdirected :
    (engine c5Ext {} 2).stageExec c5Stage c5Ctx {} =
        { status := .ok, state := .running, isFinishing := false,
          killInProgress := true, exitCode := 3, callStack := [],
          marked := [],
          trace := [.stageEnter "foo" "start", .shell "boom" 3,
            .shell "next" 0] } ∧
      (engine c5ExtDelivered {} 2).stageExec c5Stage c5Ctx {} =
        { status := .ok, state := .stopped, isFinishing := false,
          killInProgress := true, exitCode := 3, callStack := [],
          marked := [],
          trace := [.stageEnter "foo" "start", .shell "boom" 3,
            .killChildren] } :=
  ⟨rfl, rfl⟩

/-- C4 helper: the engine's `Exec` on a top-level shell-only act
(no flags, no `before` stage, no before-all, `start` declared), written
in terms of the stage executor. -/
theorem execAct_shell_shape (ext : Ext) (rc : RunConf) (fuel : Nat)
    (ctx : RCtx) (st : EngState) (S : ActExecStage)
    (hok : st.status = .ok) (hstack : st.callStack = [])
    (hflags : ctx.act.data.flags = [])
    (hbefore : ctx.act.data.before = none)
    (hba : ctx.actFile.beforeAll = none) (hprev : ctx.prev = none)
    (hstart : ctx.act.data.start = some S) :
    (engine ext rc (fuel + 1)).execAct ctx st =
      (fun st5 =>
          if st5.status ≠ .ok then st5
          else if st5.state ≠ .stopped then
            (fun st7 =>
                if st7.status ≠ .ok then st7
                else { st7 with callStack := st7.callStack.dropLast })
              (finalStageExecF
                (stageExecF (cmdExecF ext rc fuel (engine ext rc fuel)))
                ctx
                (if st5.callStack.length = 1 then st5.emit .killChildActs
                  else st5))
          else st5)
        (stageExecF (cmdExecF ext rc fuel (engine ext rc fuel)) S ctx
          { st with
            callStack := [ctx]
            marked :=
              if ctx.actFile.locationPath ∈ st.marked then st.marked
              else ctx.actFile.locationPath :: st.marked }) := by
  have hokn : ¬st.status ≠ RStatus.ok := by simp [hok]
  rw [(engine_succ_fields ext rc fuel).2.2.2.2.2]
  unfold execActF
  simp [hokn, hflags, hstart, hbefore, hok, hstack, List.dropLast_concat,
    execBeforeAllF_trivial rc fuel (engine ext rc fuel).execAct ctx _ _
      hba hprev]

/-- C4: for a top-level shell-only act with declared `start` and `final`
stages, the whole non-daemon run pipeline (`Exec` followed by `Finish`)
always enters the `final` stage after the `start` stage — whatever the
exit statuses of the sequential or parallel start commands, including a
failing sequential start command (in which case `final` is driven by
`Finish` through the call stack). -/
theorem final_runs_after_start (ext : Ext) (rc : RunConf) (fuel : Nat)
    (ctx : RCtx) (st : EngState) (S F : ActExecStage)
    (hok : st.status = .ok) (hrun : st.state = .running)
    (hfin : st.isFinishing = false) (hstack : st.callStack = [])
    (hflags : ctx.act.data.flags = [])
    (hbefore : ctx.act.data.before = none)
    (hba : ctx.actFile.beforeAll = none) (hprev : ctx.prev = none)
    (hstart : ctx.act.data.start = some S)
    (hfinal : ctx.act.data.final = some F)
    (hshS : ∀ c ∈ S.cmds, c.loop = none ∧ c.act = "")
    (hshF : ∀ c ∈ F.cmds, c.loop = none ∧ c.act = "") :
    ∃ A B, (runPipeline ext rc (fuel + 1) ctx st).trace =
      st.trace ++ .stageEnter ctx.callId S.name ::
        (A ++ .stageEnter ctx.callId F.name :: B) := by
  have hcsS : (ctx.withCurrentStage (some S)).currentStage = some S := by
    cases ctx
    rfl
  have hcsF : (ctx.withCurrentStage (some F)).currentStage = some F := by
    cases ctx
    rfl
  have hshape :=
    execAct_shell_shape ext rc fuel ctx st S hok hstack hflags hbefore hba
      hprev hstart
  rw [stageExecF_shell ext rc fuel (engine ext rc fuel) S ctx _ hshS]
    at hshape
  have hB :
      shellStageExec ext rc S ctx
          { st with
            callStack := [ctx]
            marked :=
              if ctx.actFile.locationPath ∈ st.marked then st.marked
              else ctx.actFile.locationPath :: st.marked } =
        shellFold ext rc (ctx.withCurrentStage (some S)) S.cmds
          { st with
            callStack := [ctx]
            marked :=
              if ctx.actFile.locationPath ∈ st.marked then st.marked
              else ctx.actFile.locationPath :: st.marked
            trace := st.trace ++ [.stageEnter ctx.callId S.name] } := by
    unfold shellStageExec
    simp [hok, hrun, EngState.emit]
  rw [hB] at hshape
  have HS :=
    shellFold_fields ext rc (ctx.withCurrentStage (some S)) S hcsS S.cmds
      { st with
        callStack := [ctx]
        marked :=
          if ctx.actFile.locationPath ∈ st.marked then st.marked
          else ctx.actFile.locationPath :: st.marked
        trace := st.trace ++ [.stageEnter ctx.callId S.name] }
      (by simp [hok])
  set st5 :=
    shellFold ext rc (ctx.withCurrentStage (some S)) S.cmds
      { st with
        callStack := [ctx]
        marked :=
          if ctx.actFile.locationPath ∈ st.marked then st.marked
          else ctx.actFile.locationPath :: st.marked
        trace := st.trace ++ [.stageEnter ctx.callId S.name] } with hst5
  obtain ⟨h5ok, h5stack, h5fin, h5marked, h5state, dA, h5trace⟩ := HS
  have h5fin' : st5.isFinishing = false := by rw [h5fin]; exact hfin
  have h5stack' : st5.callStack = [ctx] := by rw [h5stack]
  have h5trace' :
      st5.trace = (st.trace ++ [.stageEnter ctx.callId S.name]) ++ dA := by
    rw [h5trace]
  simp only [h5ok, ne_eq, not_true_eq_false, if_false] at hshape
  by_cases h5 : st5.state = .stopped
  · -- the start stage stopped the run: Exec skips final, Finish drives it
    have hEA : (engine ext rc (fuel + 1)).execAct ctx st = st5 := by
      rw [hshape]
      simp [h5]
    have hresume :
        finalStageExecF
            (stageExecF (cmdExecF ext rc fuel (engine ext rc fuel))) ctx
            { st5 with state := .running, isFinishing := true } =
          shellFold ext rc (ctx.withCurrentStage (some F)) F.cmds
            { st5 with
              state := .running
              isFinishing := true
              trace := st5.trace ++ [.stageEnter ctx.callId F.name] } := by
      unfold finalStageExecF
      rw [hfinal]
      dsimp only
      rw [stageExecF_shell ext rc fuel (engine ext rc fuel) F ctx _ hshF]
      unfold shellStageExec
      simp [h5ok, EngState.emit]
    obtain ⟨hFok, hFstack, hFfin, hFmarked, hFstate, dB, hFtrace⟩ :=
      shellFold_fields ext rc (ctx.withCurrentStage (some F)) F hcsF F.cmds
        { st5 with
          state := .running
          isFinishing := true
          trace := st5.trace ++ [.stageEnter ctx.callId F.name] }
        (by simp [h5ok])
    have hfinish :
        runPipeline ext rc (fuel + 1) ctx st =
          ((st5.callStack.reverse.foldl
              (fun s c =>
                finalStageExecF
                  (stageExecF (cmdExecF ext rc fuel (engine ext rc fuel)))
                  c s)
              { st5 with state := .running, isFinishing := true }).emit
            .rmDataDir) := by
      unfold runPipeline
      rw [hEA, (engine_succ_fields ext rc fuel).2.2.2.1]
      unfold finishF
      simp [h5ok, h5fin', h5]
    have hrev : st5.callStack.reverse = [ctx] := by rw [h5stack']; rfl
    rw [hfinish, hrev]
    simp only [List.foldl_cons, List.foldl_nil]
    rw [hresume]
    refine ⟨dA, dB ++ [.rmDataDir], ?_⟩
    simp only [EngState.emit]
    rw [hFtrace]
    dsimp only
    rw [h5trace']
    simp
  · -- the start stage left the run running: Exec itself drives final
    have h5run : st5.state = .running := by
      rcases h5state with h | h
      · rw [h]; exact hrun
      · exact absurd h h5
    have hlen : st5.callStack.length = 1 := by rw [h5stack']; rfl
    have hfin6 :
        finalStageExecF
            (stageExecF (cmdExecF ext rc fuel (engine ext rc fuel))) ctx
            (st5.emit .killChildActs) =
          shellFold ext rc (ctx.withCurrentStage (some F)) F.cmds
            { st5 with
              trace := st5.trace ++
                [.killChildActs, .stageEnter ctx.callId F.name] } := by
      unfold finalStageExecF
      rw [hfinal]
      dsimp only
      rw [stageExecF_shell ext rc fuel (engine ext rc fuel) F ctx _ hshF]
      unfold shellStageExec
      simp [h5ok, h5run, EngState.emit]
    obtain ⟨hFok, hFstack, hFfin, hFmarked, hFstate, dB, hFtrace⟩ :=
      shellFold_fields ext rc (ctx.withCurrentStage (some F)) F hcsF F.cmds
        { st5 with
          trace := st5.trace ++
            [.killChildActs, .stageEnter ctx.callId F.name] }
        (by simp [h5ok])
    set st7 :=
      shellFold ext rc (ctx.withCurrentStage (some F)) F.cmds
        { st5 with
          trace := st5.trace ++
            [.killChildActs, .stageEnter ctx.callId F.name] } with hst7
    have hEA : (engine ext rc (fuel + 1)).execAct ctx st =
        { st7 with callStack := st7.callStack.dropLast } := by
      rw [hshape]
      simp only [h5, ne_eq, not_false_eq_true, if_true, hlen, if_true]
      rw [hfin6]
      simp [hFok]
    have h7fin : st7.isFinishing = false := by
      rw [hFfin]
      exact h5fin'
    have h7stack : st7.callStack.dropLast = [] := by
      simp [hFstack, h5stack']
    have h7trace :
        st7.trace = st5.trace ++
          [.killChildActs, .stageEnter ctx.callId F.name] ++ dB := by
      rw [hFtrace]
    unfold runPipeline
    rw [hEA, (engine_succ_fields ext rc fuel).2.2.2.1]
    unfold finishF
    rcases hFstate with h7eq | h7stop
    · have h7run : st7.state = .running := by rw [h7eq]; exact h5run
      refine ⟨dA ++ [.killChildActs],
        dB ++ [.killChildren, .rmDataDir], ?_⟩
      simp [hFok, h7fin, h7run, EngState.emit, h7trace, h5trace']
    · refine ⟨dA ++ [.killChildActs], dB ++ [.rmDataDir], ?_⟩
      simp [hFok, h7fin, h7stop, h7stack, EngState.emit, h7trace, h5trace']

/-- C4, witness at the concrete scenario whose sequential start command
exits non-zero: the final stage is still entered after the start stage. -/
theorem final_runs_after_start_witness :
    ∃ A B, (runPipeline c4Ext {} 5 c4Ctx {}).trace =
      ({} : EngState).trace ++ .stageEnter c4Ctx.callId c4S.name ::
        (A ++ .stageEnter c4Ctx.callId c4F.name :: B) :=
  final_runs_after_start c4Ext {} 4 c4Ctx {} c4S c4F rfl rfl rfl rfl rfl
    rfl rfl rfl rfl rfl (by decide) (by decide)

/-- C6: evaluating `ExecBeforeAll` on a three-manifest parent chain.  The
walk advances with `currCtx = ctx.PrevCtx` — the previous context of the
ORIGINAL context — so it visits only the innermost manifest and its
immediate parent: the before-all stages of `/m2` and `/m3` run (parent
first), but the root manifest `/m1` is never marked and its before-all
command `R` never runs, although `/m1` is on the parent chain.  This
contradicts both the claim and the function's own documentation
("run all before acts … for the whole act run context chain"): the
intended walk is `currCtx = currCtx.PrevCtx`. -/
theorem beforeAll_walk_misses_grandparent :
    ((engine ({} : Ext) {} 6).execBeforeAll c6Ctx3 c6St).trace =
        [.stageEnter "a.b::before" "before", .shell "C" 0,
          .stageEnter "a.b.c::before" "before", .shell "D" 0] ∧
      Event.shell "R" 0 ∉
        ((engine ({} : Ext) {} 6).execBeforeAll c6Ctx3 c6St).trace ∧
      "/m1" ∉ ((engine ({} : Ext) {} 6).execBeforeAll c6Ctx3 c6St).marked := by
  refine ⟨by decide, by decide, by decide⟩

/-- C7: evaluating the run pipeline on a sequential stage whose only
command is an act call with `mismatch=allow` that fails to resolve.  The
source returns from `CmdExec` without calling `wg.Done()`, so the stage's
`wg.Wait()` can never return: the run hangs forever after entering the
start stage — the command is not a silent no-op and the enclosing stage
does not continue, contradicting the claim. -/
theorem mismatch_allow_hangs_stage :
    (runPipeline c7Ext {} 8 c7Ctx {}).status = .hung ∧
      (runPipeline c7Ext {} 8 c7Ctx {}).trace =
        [.stageEnter "foo" "start"] := by
  refine ⟨by decide, by decide⟩

/-- C9, counterexample.  The claim says loading a descriptor returns
absent when its JSON is malformed; instead the parse error is discarded
and a zero-valued descriptor is returned (`some {}`, not `none`), and the
scan keeps — rather than prunes — the directory. -/
theorem malformed_descriptor_loads_as_zero :
    loadInfoFromFile c9Fs "/w/.actdt/r1/info.json" = some {} ∧
      (some ({} : Info) : Option Info) ≠ none ∧
      getAllInfo c9Fs = ([{}], []) := by
  refine ⟨rfl, by decide, rfl⟩

/-- C9, amended: a descriptor load is absent exactly when the descriptor
file is missing; when the file exists, a failed JSON parse is ignored and
the zero-valued descriptor is returned; and the store scan prunes exactly
the subdirectories whose descriptor file is missing, returning the loaded
(possibly zero-valued) descriptors of the others. -/
theorem loadInfo_and_scan_spec (fs : FsExt) :
    (∀ p, loadInfoFromFile fs p = none ↔ fs.fileContent p = none) ∧
      (∀ p s, fs.fileContent p = some s →
        loadInfoFromFile fs p = some ((fs.parseInfo s).getD {})) ∧
      (getAllInfo fs).1 =
        fs.dirs.filterMap (fun d =>
          loadInfoFromFile fs
            (pathJoin (pathJoin (pathJoin fs.workDir ActDataDirName) d)
              InfoFileName)) ∧
      (getAllInfo fs).2 =
        (fs.dirs.filter fun d =>
            (loadInfoFromFile fs
                (pathJoin (pathJoin (pathJoin fs.workDir ActDataDirName) d)
                  InfoFileName)).isNone).map
          (fun d => pathJoin (pathJoin fs.workDir ActDataDirName) d) := by
  refine ⟨?_, ?_, ?_, ?_⟩
  · intro p
    unfold loadInfoFromFile
    cases fs.fileContent p <;> simp
  · intro p s hp
    unfold loadInfoFromFile
    rw [hp]
  · unfold getAllInfo
    induction fs.dirs with
    | nil => rfl
    | cons d rest ih =>
      unfold getAllInfoLoop
      cases h :
          loadInfoFromFile fs
            (pathJoin (pathJoin (pathJoin fs.workDir ActDataDirName) d)
              InfoFileName) with
      | none => simp [h, ih]
      | some info => simp [h, ih]
  · unfold getAllInfo
    induction fs.dirs with
    | nil => rfl
    | cons d rest ih =>
      unfold getAllInfoLoop
      cases h :
          loadInfoFromFile fs
            (pathJoin (pathJoin (pathJoin fs.workDir ActDataDirName) d)
              InfoFileName) with
      | none => simp [h, ih, List.filter_cons]
      | some info => simp [h, ih, List.filter_cons]

/-- C9, witness for the amended theorem at the concrete malformed-JSON
filesystem. -/
theorem loadInfo_and_scan_spec_witness :
    (∀ p, loadInfoFromFile c9Fs p = none ↔ c9Fs.fileContent p = none) ∧
      (∀ p s, c9Fs.fileContent p = some s →
        loadInfoFromFile c9Fs p = some ((c9Fs.parseInfo s).getD {})) ∧
      (getAllInfo c9Fs).1 =
        c9Fs.dirs.filterMap (fun d =>
          loadInfoFromFile c9Fs
            (pathJoin (pathJoin (pathJoin c9Fs.workDir ActDataDirName) d)
              InfoFileName)) ∧
      (getAllInfo c9Fs).2 =
        (c9Fs.dirs.filter fun d =>
            (loadInfoFromFile c9Fs
                (pathJoin
                  (pathJoin (pathJoin c9Fs.workDir ActDataDirName) d)
                  InfoFileName)).isNone).map
          (fun d => pathJoin (pathJoin c9Fs.workDir ActDataDirName) d) :=
  loadInfo_and_scan_spec c9Fs

end ActRunner
